/-
  Verification of the SubScout ingestion & classification pipeline.

  Shallow embedding of the TypeScript source:
    - src/app/api/webhooks/gmail/route.ts   (POST, batch variant)
    - src/app/api/sync/manual/route.ts      (POST)
    - src/app/api/test/scan-recent/route.ts (GET)
    - src/lib/services/claude.ts            (ClaudeService.classifyEmail)
    - CalendarService.createReminder
    - src/lib/db/schema.ts                  (processedEmails unique constraint)

  Conventions of the embedding:
    - Dates are modelled as integers (days); `d.setDate(d.getDate() + n)`
      becomes `d + n`.
    - JavaScript truthiness is modelled explicitly: `s || t` on strings is
      `jsOrStr`, `x?.f || t` on nullable strings is `jsOrOptStr`, a numeric
      guard `if (n)` is `n ≠ 0`, a nullable-string guard is `isTruthyOptStr`.
    - External services (Gmail resolution, the Anthropic call, the Calendar
      insert, token refresh) are oracles passed as explicit arguments; the
      route handlers are pure functions of the database state plus those
      oracles, returning the new database state, the aggregate counters and
      a trace of the observable pipeline events in program order.
    - Classifier confidence is a rational number (the JS float values the
      claims use, 0.69 / 0.70, are exact in both representations and all
      comparisons agree).
-/
import Mathlib

namespace SubScout

/-! ## JavaScript truthiness helpers -/

/-- JS `a || b` for strings: the empty string is falsy. -/
def jsOrStr (a b : String) : String :=
  if a = "" then b else a

/-- JS `a || b` where `a` is a nullable string (`null` and `""` are falsy). -/
def jsOrOptStr (a : Option String) (b : String) : String :=
  match a with
  | none => b
  | some s => jsOrStr s b

/-- JS truthiness of a nullable string (`null` and `""` are falsy). -/
def isTruthyOptStr (a : Option String) : Bool :=
  match a with
  | none => false
  | some s => s ≠ ""

/-- JS `Math.round` (round half away from zero is round half up for the
    non-negative values produced by `confidence * 100`). -/
def jsRound (q : ℚ) : Int :=
  ⌊q + 1/2⌋

/-! ## Classifier output (src/types, as consumed by the routes) -/

/-- `EmailClassification`, the classifier's structured output.
    `end_date` is modelled as the parsed date (an integer day) when the
    classifier returned a non-null date string, `none` otherwise;
    `duration_days` is the nullable number field. -/
structure EmailClassification where
  is_subscription : Bool
  confidence : ℚ
  service_name : Option String
  ctype : Option String
  duration_days : Option Int
  end_date : Option Int
  reasoning : String
deriving Repr, DecidableEq

/-! ## End-date computation (webhooks/gmail/route.ts lines 212–222,
    repeated verbatim in sync/manual and test/scan-recent) -/

/-- The end-date computation exactly as the routes write it:
    `if (classification.end_date) { verbatim }
     else if (classification.duration_days) { detected + duration_days }
     else { detected + 14 }`.
    Note the JS numeric-truthiness guard: `duration_days` equal to `0`
    takes the final `else` branch. -/
def computeEndDate (c : EmailClassification) (detected : Int) : Int :=
  match c.end_date with
  | some d => d
  | none =>
    match c.duration_days with
    | some n => if n ≠ 0 then detected + n else detected + 14
    | none => detected + 14

/-- The spec's wording of the same rule ("otherwise, if the classification
    declares a duration_days, the end date is the message's detected date
    plus duration_days days"): any declared duration is used, including 0.
    Kept separate so the two rules can be compared. -/
def computeEndDateSpec (c : EmailClassification) (detected : Int) : Int :=
  match c.end_date with
  | some d => d
  | none =>
    match c.duration_days with
    | some n => detected + n
    | none => detected + 14

/-! ## CalendarService.createReminder -/

/-- Outcome of the external calendar insert: `.error` models the calendar
    being unreachable (the API call throwing); `.ok id?` models a response,
    whose `data.id` may itself be absent (`response.data.id || null`). -/
abbrev CalendarOutcome := Except Unit (Option String)

/-- `CalendarService.createReminder`: subtract the lead days from the end
    date; if the reminder date is already in the past return `null` without
    calling the calendar; otherwise attempt the insert, returning the event
    id on success and `null` (not an exception — the catch block) when the
    calendar is unreachable. -/
def createReminder (now : Int) (endDate : Int) (reminderDaysBefore : Int)
    (cal : CalendarOutcome) : Option String :=
  let reminderDate := endDate - reminderDaysBefore
  if reminderDate < now then
    none
  else
    match cal with
    | .error _ => none
    | .ok id? => id?

/-! ## ClaudeService.classifyEmail -/

/-- Outcome of the Anthropic API call followed by JSON parsing:
    `.error msg` models the call throwing with message `msg`;
    `.ok none` models a response whose text fails to parse
    (`JSON.parse` throwing inside the same try block);
    `.ok (some c)` models a successfully parsed classification. -/
abbrev ClassifierOutcome := Except String (Option EmailClassification)

/-- `ClaudeService.classifyEmail`: every failure path is caught and turned
    into the default negative classification carrying a diagnostic
    reasoning string; the function never raises.  The email content only
    feeds the prompt (via the `outcome` oracle), never the control flow. -/
def classifyEmail (subject sender body : String) (date : Option Int)
    (outcome : ClassifierOutcome) : EmailClassification :=
  match outcome with
  | .ok (some c) => c
  | .ok none =>
    { is_subscription := false, confidence := 0, service_name := none,
      ctype := none, duration_days := none, end_date := none,
      reasoning := "Failed to classify: JSON parse error" }
  | .error msg =>
    { is_subscription := false, confidence := 0, service_name := none,
      ctype := none, duration_days := none, end_date := none,
      reasoning := "Failed to classify: " ++ msg }

/-! ## Database model (src/lib/db/schema.ts) -/

/-- A row of the `users` table (the fields the pipeline reads/writes). -/
structure UserRow where
  id : String
  email : String
  googleAccessToken : Option String
  gmailHistoryId : Option String
deriving Repr, DecidableEq

/-- A row of the `settings` table. -/
structure SettingsRow where
  userId : String
  reminderDaysBefore : Int
  enabled : Bool
deriving Repr, DecidableEq

/-- A row of the `processed_emails` table (the dedup ledger). -/
structure ProcessedEmailRow where
  userId : String
  gmailMessageId : String
  isSubscription : Bool
deriving Repr, DecidableEq

/-- A row of the `subscriptions` table (the fields the pipeline writes). -/
structure SubscriptionRow where
  userId : String
  serviceName : String
  stype : String
  detectedDate : Int
  endDate : Option Int
  calendarEventId : Option String
  status : String
  emailSubject : String
  emailSnippet : Option String
  confidence : Int
deriving Repr, DecidableEq

/-- The persistent state the pipeline touches. -/
structure DB where
  users : List UserRow
  settings : List SettingsRow
  processedEmails : List ProcessedEmailRow
  subscriptions : List SubscriptionRow
deriving Repr, DecidableEq

/-- Number of ledger rows carrying a given gmail message id (across all
    accounts — schema.ts puts the unique constraint on the column alone). -/
def ledgerCount (db : DB) (messageId : String) : Nat :=
  (db.processedEmails.filter (fun p => p.gmailMessageId = messageId)).length

/-- Does the ledger hold a row for this (account, message id) pair?  This is
    the query every route runs before classifying
    (`eq(processedEmails.userId, user.id) ∧ eq(processedEmails.gmailMessageId, id)`). -/
def ledgerHas (db : DB) (userId messageId : String) : Bool :=
  db.processedEmails.any
    (fun p => p.userId = userId ∧ p.gmailMessageId = messageId)

/-- Number of subscription rows for a given (account, email subject) pair. -/
def subsCount (db : DB) (userId subject : String) : Nat :=
  (db.subscriptions.filter
    (fun s => s.userId = userId ∧ s.emailSubject = subject)).length

/-- The query the manual-sync and scan-recent routes run before inserting a
    subscription (`eq(subscriptions.userId, ...) ∧ eq(subscriptions.emailSubject, ...)`). -/
def subsHas (db : DB) (userId subject : String) : Bool :=
  db.subscriptions.any
    (fun s => s.userId = userId ∧ s.emailSubject = subject)

/-- `db.insert(processedEmails).values(...)` under the schema's
    `gmail_message_id text NOT NULL UNIQUE` constraint: the insert fails
    (the promise rejects) whenever any row — for any account — already
    carries the same message id. -/
def insertProcessedEmail (db : DB) (row : ProcessedEmailRow) :
    Except Unit DB :=
  if db.processedEmails.any (fun p => p.gmailMessageId = row.gmailMessageId) then
    .error ()
  else
    .ok { db with processedEmails := db.processedEmails ++ [row] }

/-- `db.insert(subscriptions).values(...)`: the subscriptions table carries
    no relevant unique constraint, so the insert always succeeds. -/
def insertSubscription (db : DB) (row : SubscriptionRow) : DB :=
  { db with subscriptions := db.subscriptions ++ [row] }

/-- `db.update(users).set({ gmailHistoryId: v, ... }).where(eq(users.id, uid))`. -/
def updateUserCursor (db : DB) (uid : String) (v : String) : DB :=
  let f := fun (u : UserRow) =>
    if u.id = uid then { u with gmailHistoryId := some v } else u
  { db with users := db.users.map f }

/-! ## Messages and run observables -/

/-- A Gmail message as the routes consume it.  `extractEmailContent`'s
    header/body decoding is collapsed into the `subject`/`sender`/`body`
    fields; `date` is the parsed `internalDate`. -/
structure Msg where
  id : String
  labelIds : List String
  subject : String
  sender : String
  snippet : Option String
  date : Int
deriving Repr, DecidableEq

/-- The observable pipeline events of one run, in program order. -/
inductive Event where
  | cursorUpdate (value : String)
  | classify (messageId : String)
  | insertLedger (messageId : String)
  | insertSub (userId subject : String)
deriving Repr, DecidableEq

/-- Aggregate counters a run reports. -/
structure Counts where
  processed : Nat := 0
  skipped : Nat := 0
  subscriptions : Nat := 0
  errors : Nat := 0
deriving Repr, DecidableEq

/-- Result of one route invocation: final state, counters, event trace,
    and whether the handler aborted with an uncaught exception (only the
    manual-sync and scan-recent handlers can — the webhook catches all). -/
structure RunResult where
  db : DB
  counts : Counts
  trace : List Event
  aborted : Bool := false
deriving Repr, DecidableEq

/-! ## processInBatches (webhooks/gmail/route.ts lines 16–28) -/

/-- Fuel-driven worker for `toBatches` (structural recursion on the fuel,
    which starts at the list length and never runs out). -/
def toBatchesAux (batchSize : Nat) : Nat → List α → List (List α)
  | _, [] => []
  | 0, _ :: _ => []
  | fuel + 1, a :: rest =>
    (a :: rest.take (batchSize - 1))
      :: toBatchesAux batchSize fuel (rest.drop (batchSize - 1))

/-- Split a list into consecutive runs of `batchSize` elements
    (`items.slice(i, i + batchSize)` for `i = 0, batchSize, ...`).
    The JS loop advances by `batchSize` each iteration; the model always
    makes progress of at least one element (the code only ever calls it
    with the default `BATCH_SIZE = 10`). -/
def toBatches (batchSize : Nat) (l : List α) : List (List α) :=
  toBatchesAux batchSize l.length l

/-- `processInBatches`: run the processor over each batch with
    `Promise.allSettled` (so one rejection never discards its siblings'
    results), concatenating the settled results batch after batch.  Each
    item's outcome is its processor result, an `Except`. -/
def processInBatches (items : List α) (processor : α → Except ε β)
    (batchSize : Nat := 10) : List (Except ε β) :=
  (toBatches batchSize items).flatMap (fun batch => batch.map processor)

/-- The literal `0.7` of the confidence gate, as the rational 7/10 (given
    kernel-reducible numerator/denominator form; all comparisons the claims
    make agree between this rational reading and IEEE doubles). -/
def confidenceThreshold : ℚ := ⟨7, 10, by norm_num, by norm_num⟩

/-- The subscription-materialization guard shared verbatim by all three
    routes: `classification.is_subscription && classification.confidence >= 0.7`. -/
def qualifies (c : EmailClassification) : Bool :=
  c.is_subscription && decide (confidenceThreshold ≤ c.confidence)

/-- The subscription row all three routes insert for a qualifying
    classification. -/
def subscriptionRowFor (u : UserRow) (m : Msg) (c : EmailClassification)
    (endDate : Int) (calendarEventId : Option String) : SubscriptionRow :=
  { userId := u.id
    serviceName := jsOrOptStr c.service_name "Unknown Service"
    stype := jsOrOptStr c.ctype "subscription"
    detectedDate := m.date
    endDate := some endDate
    calendarEventId := calendarEventId
    status := "active"
    emailSubject := m.subject
    emailSnippet := m.snippet
    confidence := jsRound (c.confidence * 100) }

/-! ## Shared route helpers -/

/-- `db.query.users.findFirst({ where: eq(users.email, email) })`. -/
def findUserByEmail (db : DB) (email : String) : Option UserRow :=
  db.users.find? (fun u => u.email = email)

/-- `db.query.settings.findFirst({ where: eq(settings.userId, uid) })`. -/
def findSettings (db : DB) (uid : String) : Option SettingsRow :=
  db.settings.find? (fun s => s.userId = uid)

/-- A handler exit that performed no pipeline work. -/
def noopRun (db : DB) : RunResult :=
  { db := db, counts := {}, trace := [] }

/-! ## Webhook ingestion (src/app/api/webhooks/gmail/route.ts, POST) -/

/-- The decoded Pub/Sub payload `{emailAddress, historyId}`. -/
structure PushData where
  emailAddress : String
  historyId : String
deriving Repr, DecidableEq

/-- One item of the webhook's step-4 processing batch (the per-item closure
    body): insert the ledger row inside a try/catch — a rejected insert
    only bumps the error counter; then, when the classification qualifies,
    compute the end date, attempt the reminder and insert the subscription
    row with no lookup of existing subscriptions. -/
def webhookProcessItem (u : UserRow) (st : SettingsRow) (now : Int)
    (cal : Msg → CalendarOutcome)
    (acc : DB × Counts × List Event) (item : Msg × EmailClassification) :
    DB × Counts × List Event :=
  let (db, cnt, tr) := acc
  let (m, c) := item
  match insertProcessedEmail db ⟨u.id, m.id, c.is_subscription⟩ with
  | .error _ => (db, { cnt with errors := cnt.errors + 1 }, tr)
  | .ok db1 =>
    let cnt1 := { cnt with processed := cnt.processed + 1 }
    let tr1 := tr ++ [Event.insertLedger m.id]
    if qualifies c then
      let endDate := computeEndDate c m.date
      let eventId := createReminder now endDate st.reminderDaysBefore (cal m)
      let db2 := insertSubscription db1 (subscriptionRowFor u m c endDate eventId)
      (db2, { cnt1 with subscriptions := cnt1.subscriptions + 1 },
        tr1 ++ [Event.insertSub u.id m.subject])
    else
      (db1, cnt1, tr1)

/-- The promotional-label test of step 1
    (`message.labelIds?.some(label => label === "CATEGORY_PROMOTIONS")`). -/
def isPromo (m : Msg) : Bool :=
  m.labelIds.contains "CATEGORY_PROMOTIONS"

/-- The webhook body after all guards have passed: advance the cursor, then
    filter, deduplicate, classify in batches and process the fulfilled
    classifications. -/
def webhookPipeline (u : UserRow) (st : SettingsRow) (push : PushData)
    (resolve : String → List Msg × Option String)
    (classify : Msg → Except String EmailClassification)
    (cal : Msg → CalendarOutcome) (now : Int) (db : DB) : RunResult :=
  let historyId := jsOrOptStr u.gmailHistoryId push.historyId
  let resolved := resolve historyId
  let newHistoryId := jsOrOptStr resolved.2 push.historyId
  -- "Update historyId immediately to prevent reprocessing on retry"
  let db1 := updateUserCursor db u.id newHistoryId
  let tr0 := [Event.cursorUpdate newHistoryId]
  let messages := resolved.1
  if messages = [] then
    { db := db1, counts := {}, trace := tr0 }
  else
    -- Step 1: filter out promotional emails
    let nonPromo := messages.filter (fun m => ¬ isPromo m)
    -- Step 2: batch check which emails are already processed
    let ids := nonPromo.map (fun m => m.id)
    let alreadyProcessed := db1.processedEmails.filter
      (fun p => p.userId = u.id ∧ ids.contains p.gmailMessageId)
    let processedIdSet := alreadyProcessed.map (fun p => p.gmailMessageId)
    let toProcess := nonPromo.filter (fun m => ¬ processedIdSet.contains m.id)
    let skipped := (messages.length - nonPromo.length)
      + (nonPromo.length - toProcess.length)
    if toProcess = [] then
      { db := db1, counts := { skipped := skipped }, trace := tr0 }
    else
      -- Step 3: classify all emails in parallel batches
      let results := processInBatches toProcess
        (fun m => (classify m).map (fun c => (m, c))) 10
      let trC := toProcess.map (fun m => Event.classify m.id)
      let fulfilled := results.filterMap (fun r => r.toOption)
      let rejectedCount := results.length - fulfilled.length
      -- Step 4: process results in parallel batches
      let init := (db1,
        ({ skipped := skipped, errors := rejectedCount } : Counts),
        tr0 ++ trC)
      let final := fulfilled.foldl (webhookProcessItem u st now cal) init
      { db := final.1, counts := final.2.1, trace := final.2.2 }

/-- The webhook `POST` handler, after payload decoding.  Oracles:
    `tokenResult` is `getValidAccessToken`'s outcome, `resolve` is
    `getMessagesSinceHistory` (input: the history id used; output: the
    filtered messages and the response's own latest history id, `none`
    when the cursor was stale), `classify` is the per-message
    classification closure of step 3 (`.error` models the promise
    rejecting), `cal` is the external calendar outcome per message. -/
def webhookPOST (push : PushData) (tokenResult : Option String)
    (resolve : String → List Msg × Option String)
    (classify : Msg → Except String EmailClassification)
    (cal : Msg → CalendarOutcome) (now : Int) (db : DB) : RunResult :=
  match findUserByEmail db push.emailAddress with
  | none => noopRun db
  | some u =>
    if ¬ isTruthyOptStr u.googleAccessToken then noopRun db
    else
      match findSettings db u.id with
      | none => noopRun db
      | some st =>
        if ¬ st.enabled then noopRun db
        else
          match tokenResult with
          | none => noopRun db
          | some _ => webhookPipeline u st push resolve classify cal now db

/-! ## Manual sync (src/app/api/sync/manual/route.ts, POST) -/

/-- The manual-sync per-message loop.  Each message: skip when the ledger
    already has it for this account; classify; insert the ledger row — an
    insert rejection is uncaught inside the loop, so it aborts the whole
    handler (500) with the work committed so far; for a qualifying
    classification look up an existing subscription with the same
    (account, email subject) and skip the insert when one exists. -/
def manualLoop (u : UserRow) (st? : Option SettingsRow) (now : Int)
    (classify : Msg → EmailClassification) (cal : Msg → CalendarOutcome) :
    List Msg → DB → Counts → List Event → RunResult
  | [], db, cnt, tr => { db := db, counts := cnt, trace := tr }
  | m :: rest, db, cnt, tr =>
    if ledgerHas db u.id m.id then
      manualLoop u st? now classify cal rest db cnt tr
    else
      let c := classify m
      let tr1 := tr ++ [Event.classify m.id]
      match insertProcessedEmail db ⟨u.id, m.id, c.is_subscription⟩ with
      | .error _ => { db := db, counts := cnt, trace := tr1, aborted := true }
      | .ok db1 =>
        let cnt1 := { cnt with processed := cnt.processed + 1 }
        let tr2 := tr1 ++ [Event.insertLedger m.id]
        if qualifies c then
          if subsHas db1 u.id m.subject then
            manualLoop u st? now classify cal rest db1 cnt1 tr2
          else
            let endDate := computeEndDate c m.date
            let eventId := match st? with
              | some st => createReminder now endDate st.reminderDaysBefore (cal m)
              | none => none
            let db2 := insertSubscription db1
              (subscriptionRowFor u m c endDate eventId)
            manualLoop u st? now classify cal rest db2
              { cnt1 with subscriptions := cnt1.subscriptions + 1 }
              (tr2 ++ [Event.insertSub u.id m.subject])
        else
          manualLoop u st? now classify cal rest db1 cnt1 tr2

/-- The manual-sync `POST` handler: authenticated session email, user
    lookup, settings lookup (read only for the reminder lead time — the
    handler never consults the enabled flag), token, then fetch the 20 most
    recent messages (the `recent` oracle) and run the loop. -/
def manualSyncPOST (sessionEmail : Option String) (tokenResult : Option String)
    (recent : List Msg) (classify : Msg → EmailClassification)
    (cal : Msg → CalendarOutcome) (now : Int) (db : DB) : RunResult :=
  match sessionEmail with
  | none => noopRun db
  | some email =>
    match findUserByEmail db email with
    | none => noopRun db
    | some u =>
      let st? := findSettings db u.id
      match tokenResult with
      | none => noopRun db
      | some _ => manualLoop u st? now classify cal recent db {} []

/-! ## Diagnostic scan (src/app/api/test/scan-recent/route.ts, GET) -/

/-- The scan-recent per-message loop.  The dedup skip is
    `if (existing && !force)`; with `force` the message is classified again
    but the ledger insert is still guarded by `if (!existing)`.  An insert
    rejection is uncaught (the route has no try/catch at all), aborting
    the handler. -/
def scanLoop (u : UserRow) (st? : Option SettingsRow) (force : Bool) (now : Int)
    (classify : Msg → EmailClassification) (cal : Msg → CalendarOutcome) :
    List Msg → DB → List Event → RunResult
  | [], db, tr => { db := db, counts := {}, trace := tr }
  | m :: rest, db, tr =>
    let existing := ledgerHas db u.id m.id
    if existing ∧ ¬ force then
      scanLoop u st? force now classify cal rest db tr
    else
      let c := classify m
      let tr1 := tr ++ [Event.classify m.id]
      let step : Except Unit DB :=
        if ¬ existing then insertProcessedEmail db ⟨u.id, m.id, c.is_subscription⟩
        else .ok db
      match step with
      | .error _ => { db := db, counts := {}, trace := tr1, aborted := true }
      | .ok db1 =>
        let tr2 := tr1 ++ (if ¬ existing then [Event.insertLedger m.id] else [])
        if qualifies c then
          if subsHas db1 u.id m.subject then
            scanLoop u st? force now classify cal rest db1 tr2
          else
            let endDate := computeEndDate c m.date
            let eventId := match st? with
              | some st => createReminder now endDate st.reminderDaysBefore (cal m)
              | none => none
            let db2 := insertSubscription db1
              (subscriptionRowFor u m c endDate eventId)
            scanLoop u st? force now classify cal rest db2
              (tr2 ++ [Event.insertSub u.id m.subject])
        else
          scanLoop u st? force now classify cal rest db1 tr2

/-- The scan-recent `GET` handler (after the bearer-secret check): user
    lookup by the `email` query parameter, settings lookup, token, then the
    recent-message loop with the `force` flag from the query string. -/
def scanRecentGET (email : Option String) (force : Bool)
    (tokenResult : Option String) (recent : List Msg)
    (classify : Msg → EmailClassification) (cal : Msg → CalendarOutcome)
    (now : Int) (db : DB) : RunResult :=
  match email with
  | none => noopRun db
  | some e =>
    match findUserByEmail db e with
    | none => noopRun db
    | some u =>
      let st? := findSettings db u.id
      match tokenResult with
      | none => noopRun db
      | some _ => scanLoop u st? force now classify cal recent db []

/-! ## Specification predicates on the ledger (for the schema claims) -/

/-- At most one ledger row per gmail message id across all accounts — the
    reading of `gmail_message_id text NOT NULL UNIQUE` in schema.ts. -/
def globallyUniqueLedger (rows : List ProcessedEmailRow) : Prop :=
  rows.Pairwise (fun a b => a.gmailMessageId ≠ b.gmailMessageId)

/-- At most one ledger row per (account, message id) pair — the spec's
    stated invariant. -/
def perAccountUniqueLedger (rows : List ProcessedEmailRow) : Prop :=
  rows.Pairwise
    (fun a b => ¬ (a.userId = b.userId ∧ a.gmailMessageId = b.gmailMessageId))

/-! ## Concrete fixtures used by the witnesses, scenarios and counterexamples -/

/-- The rational value 0.9 (kernel-reducible form). -/
def conf090 : ℚ := ⟨9, 10, by norm_num, by norm_num⟩

/-- The rational value 0.69 (kernel-reducible form). -/
def conf069 : ℚ := ⟨69, 100, by norm_num, by norm_num⟩

/-- The rational value 0.70 (kernel-reducible form; 70/100 reduced). -/
def conf070 : ℚ := ⟨7, 10, by norm_num, by norm_num⟩

/-- Fixture account `u@x.com` with a valid token field and stored cursor "90". -/
def uFix : UserRow := ⟨"u1", "u@x.com", some "tok", some "90"⟩

/-- Fixture settings row: 2-day reminder lead, monitoring enabled. -/
def sFix : SettingsRow := ⟨"u1", 2, true⟩

/-- Fixture settings row with monitoring disabled. -/
def sFixOff : SettingsRow := ⟨"u1", 2, false⟩

/-- A fixture inbox message (primary inbox, not promotional). -/
def mkMsg (id subj : String) (d : Int) : Msg :=
  ⟨id, ["INBOX"], subj, "sender@svc.example", none, d⟩

/-- A qualifying fixture classification (trial, confidence 0.9,
    14-day declared duration, no explicit end date). -/
def cFix : EmailClassification :=
  { is_subscription := true, confidence := conf090, service_name := some "Acme"
    ctype := some "trial", duration_days := some 14, end_date := none
    reasoning := "trial signup" }

/-- The fixture classification with a declared duration of zero days. -/
def cFixDur0 : EmailClassification :=
  { cFix with duration_days := some 0 }

/-- Gmail resolution oracle for the spec's cursor scenario: resolving from
    the stored cursor "90" yields two messages and the new cursor "105";
    any other start yields nothing with a null cursor. -/
def resolveFix : String → List Msg × Option String := fun h =>
  if h = "90" then ([mkMsg "m1" "S1" 100, mkMsg "m2" "S2" 100], some "105")
  else ([], none)

/-- Classifier oracle that classifies every message as `cFix`. -/
def classifyFixOk : Msg → Except String EmailClassification :=
  fun _ => .ok cFix

/-- Total classifier oracle (manual sync / scan-recent call `classifyEmail`,
    which never raises) returning `cFix` for every message. -/
def classifyFixT : Msg → EmailClassification := fun _ => cFix

/-- Calendar oracle: the insert succeeds and returns event id "ev1". -/
def calFixOk : Msg → CalendarOutcome := fun _ => .ok (some "ev1")

/-- Calendar oracle: the calendar is unreachable (the API call throws). -/
def calFixDown : Msg → CalendarOutcome := fun _ => .error ()

/-- Baseline database: the fixture account and settings, nothing processed. -/
def dbFix : DB := ⟨[uFix], [sFix], [], []⟩

/-- The C3 scenario run: webhook notification for `u@x.com` with history
    hint "100" against the baseline database. -/
def runScenarioC3 : RunResult :=
  webhookPOST ⟨"u@x.com", "100"⟩ (some "tok") resolveFix classifyFixOk calFixOk 0 dbFix

/-- A subscription row already materialized for (u1, "S1"). -/
def subFix : SubscriptionRow :=
  { userId := "u1", serviceName := "Acme", stype := "trial", detectedDate := 50
    endDate := some 64, calendarEventId := none, status := "active"
    emailSubject := "S1", emailSnippet := none, confidence := 90 }

/-- Database that already holds a subscription for (u1, "S1"). -/
def dbWithSub : DB := ⟨[uFix], [sFix], [], [subFix]⟩

/-- C1 counterexample run: the webhook processes a fresh message whose
    subject "S1" equals the existing subscription's subject. -/
def runDupSubject : RunResult :=
  webhookPOST ⟨"u@x.com", "100"⟩ (some "tok") resolveFix classifyFixOk calFixOk 0 dbWithSub

/-- Database whose ledger already records message "m1" for account u1. -/
def dbWithLedger : DB := ⟨[uFix], [sFix], [⟨"u1", "m1", true⟩], []⟩

/-- C2 counterexample run: diagnostic scan with `force=true` over the
    already-processed message "m1". -/
def runForceRescan : RunResult :=
  scanRecentGET (some "u@x.com") true (some "tok") [mkMsg "m1" "S1" 100]
    classifyFixT calFixOk 0 dbWithLedger

/-- Database with the fixture account but monitoring disabled. -/
def dbDisabled : DB := ⟨[uFix], [sFixOff], [], []⟩

/-- C4 counterexample run: manual sync for the account whose settings have
    `enabled = false`. -/
def runManualDisabled : RunResult :=
  manualSyncPOST (some "u@x.com") (some "tok") [mkMsg "m1" "S1" 100]
    classifyFixT calFixOk 0 dbDisabled

/-- C5 counterexample run: webhook processing of one message whose
    classification declares `duration_days = 0`. -/
def runDurZero : RunResult :=
  webhookPOST ⟨"u@x.com", "100"⟩ (some "tok")
    (fun h => if h = "90" then ([mkMsg "m1" "S1" 100], some "105") else ([], none))
    (fun _ => .ok cFixDur0) calFixOk 0 dbFix

/-- Webhook run whose (unique) classification has the given confidence. -/
def runWebhookConf (conf : ℚ) : RunResult :=
  webhookPOST ⟨"u@x.com", "100"⟩ (some "tok")
    (fun h => if h = "90" then ([mkMsg "m1" "S1" 100], some "105") else ([], none))
    (fun _ => .ok { cFix with confidence := conf }) calFixOk 0 dbFix

/-- Manual-sync run whose (unique) classification has the given confidence. -/
def runManualConf (conf : ℚ) : RunResult :=
  manualSyncPOST (some "u@x.com") (some "tok") [mkMsg "m1" "S1" 100]
    (fun _ => { cFix with confidence := conf }) calFixOk 0 dbFix

/-- Scan-recent run whose (unique) classification has the given confidence. -/
def runScanConf (conf : ℚ) : RunResult :=
  scanRecentGET (some "u@x.com") false (some "tok") [mkMsg "m1" "S1" 100]
    (fun _ => { cFix with confidence := conf }) calFixOk 0 dbFix

/-- C7 run: qualifying classification, calendar unreachable. -/
def runCalendarDown : RunResult :=
  webhookPOST ⟨"u@x.com", "100"⟩ (some "tok")
    (fun h => if h = "90" then ([mkMsg "m1" "S1" 100], some "105") else ([], none))
    classifyFixOk calFixDown 0 dbFix

/-- C9 scenario: the ten-message batch, with ids b1 … b10. -/
def batchMsgs : List Msg :=
  [mkMsg "b1" "T1" 100, mkMsg "b2" "T2" 100, mkMsg "b3" "T3" 100,
   mkMsg "b4" "T4" 100, mkMsg "b5" "T5" 100, mkMsg "b6" "T6" 100,
   mkMsg "b7" "T7" 100, mkMsg "b8" "T8" 100, mkMsg "b9" "T9" 100,
   mkMsg "b10" "T10" 100]

/-- C9 classifier oracle: the call throws for message "b5" only. -/
def classifyFailB5 : Msg → Except String EmailClassification :=
  fun m => if m.id = "b5" then .error "boom" else .ok cFix

/-- C9 scenario run: webhook over the ten-message batch with the one
    failing classification. -/
def runBatchOneFail : RunResult :=
  webhookPOST ⟨"u@x.com", "100"⟩ (some "tok")
    (fun h => if h = "90" then (batchMsgs, some "105") else ([], none))
    classifyFailB5 calFixOk 0 dbFix

/-! # Infrastructure lemmas -/

theorem ledgerCount_pos_insert_error {db : DB} {row : ProcessedEmailRow}
    (h : 1 ≤ ledgerCount db row.gmailMessageId) :
    insertProcessedEmail db row = .error () := by
  simp only [insertProcessedEmail]
  rw [if_pos]
  have h' : 0 < (db.processedEmails.filter
      (fun p => p.gmailMessageId = row.gmailMessageId)).length := h
  rw [List.length_pos_iff_exists_mem] at h'
  obtain ⟨p, hp⟩ := h'
  rw [List.mem_filter] at hp
  exact List.any_eq_true.mpr ⟨p, hp.1, hp.2⟩

theorem insert_ok_count_zero {db : DB} {row : ProcessedEmailRow} {db' : DB}
    (h : insertProcessedEmail db row = .ok db') :
    ledgerCount db row.gmailMessageId = 0 := by
  simp only [insertProcessedEmail] at h
  split at h
  · exact absurd h (by simp)
  · rename_i hnone
    simp only [ledgerCount, List.length_eq_zero, List.filter_eq_nil_iff]
    intro p hp hdec
    exact hnone (List.any_eq_true.mpr ⟨p, hp, hdec⟩)

theorem insert_ok_ledger {db : DB} {row : ProcessedEmailRow} {db' : DB}
    (h : insertProcessedEmail db row = .ok db') :
    db'.processedEmails = db.processedEmails ++ [row] := by
  simp only [insertProcessedEmail] at h
  split at h
  · exact absurd h (by simp)
  · cases h; rfl

theorem insert_ok_others {db : DB} {row : ProcessedEmailRow} {db' : DB}
    (h : insertProcessedEmail db row = .ok db') :
    db'.users = db.users ∧ db'.settings = db.settings
      ∧ db'.subscriptions = db.subscriptions := by
  simp only [insertProcessedEmail] at h
  split at h
  · exact absurd h (by simp)
  · cases h; exact ⟨rfl, rfl, rfl⟩

theorem ledgerCount_insert_ok_of_pos {db : DB} {row : ProcessedEmailRow}
    {db' : DB} {id : String} (h : insertProcessedEmail db row = .ok db')
    (hpos : 1 ≤ ledgerCount db id) :
    ledgerCount db' id = ledgerCount db id := by
  have hz := insert_ok_count_zero h
  have hne : row.gmailMessageId ≠ id := by
    intro heq; rw [heq] at hz; omega
  rw [ledgerCount, insert_ok_ledger h, List.filter_append, List.length_append]
  simp [ledgerCount, hne]

theorem ledgerHas_insert_ok {db : DB} {row : ProcessedEmailRow} {db' : DB}
    {uid mid : String} (h : insertProcessedEmail db row = .ok db')
    (hhas : ledgerHas db uid mid = true) :
    ledgerHas db' uid mid = true := by
  simp only [ledgerHas, insert_ok_ledger h, List.any_append]
  simp only [ledgerHas] at hhas
  rw [hhas]
  rfl

theorem ledgerCount_insertSubscription (db : DB) (row : SubscriptionRow)
    (id : String) :
    ledgerCount (insertSubscription db row) id = ledgerCount db id := rfl

theorem ledgerHas_insertSubscription (db : DB) (row : SubscriptionRow)
    (uid mid : String) :
    ledgerHas (insertSubscription db row) uid mid = ledgerHas db uid mid := rfl

theorem subsCount_insertSubscription (db : DB) (row : SubscriptionRow)
    (uid subj : String) :
    subsCount (insertSubscription db row) uid subj
      = subsCount db uid subj
        + (if row.userId = uid ∧ row.emailSubject = subj then 1 else 0) := by
  simp only [subsCount, insertSubscription, List.filter_append,
    List.length_append]
  congr 1
  by_cases hc : row.userId = uid ∧ row.emailSubject = subj
  · simp [hc.1, hc.2]
  · simp [hc]

theorem subsHas_false_count_zero {db : DB} {uid subj : String}
    (h : subsHas db uid subj = false) : subsCount db uid subj = 0 := by
  simp only [subsHas, List.any_eq_true, not_exists] at h
  rw [Bool.eq_false_iff] at h
  simp only [subsCount, List.length_eq_zero, List.filter_eq_nil_iff]
  intro s hs hdec
  exact h (List.any_eq_true.mpr ⟨s, hs, hdec⟩)

theorem subsCount_insert_ok {db : DB} {row : ProcessedEmailRow} {db' : DB}
    (h : insertProcessedEmail db row = .ok db') (uid subj : String) :
    subsCount db' uid subj = subsCount db uid subj := by
  simp [subsCount, (insert_ok_others h).2.2]

theorem webhookFold_ledgerCount (u : UserRow) (st : SettingsRow) (now : Int)
    (cal : Msg → CalendarOutcome) (id : String) :
    ∀ (items : List (Msg × EmailClassification)) (acc : DB × Counts × List Event),
      1 ≤ ledgerCount acc.1 id →
      ledgerCount (items.foldl (webhookProcessItem u st now cal) acc).1 id
        = ledgerCount acc.1 id := by
  intro items
  induction items with
  | nil => intro acc _; rfl
  | cons item rest ih =>
    rintro ⟨db, cnt, tr⟩ h
    obtain ⟨m, c⟩ := item
    rw [List.foldl_cons]
    have hpos : 1 ≤ ledgerCount db id := h
    cases hins : insertProcessedEmail db ⟨u.id, m.id, c.is_subscription⟩ with
    | error e =>
      have hstep : webhookProcessItem u st now cal (db, cnt, tr) (m, c)
          = (db, ({ cnt with errors := cnt.errors + 1 } : Counts), tr) := by
        simp [webhookProcessItem, hins]
      rw [hstep]
      exact ih _ h
    | ok db1 =>
      have hcnt : ledgerCount db1 id = ledgerCount db id :=
        ledgerCount_insert_ok_of_pos hins hpos
      cases hq : qualifies c with
      | false =>
        have hstep : webhookProcessItem u st now cal (db, cnt, tr) (m, c)
            = (db1, ({ cnt with processed := cnt.processed + 1 } : Counts),
                tr ++ [Event.insertLedger m.id]) := by
          simp [webhookProcessItem, hins, hq]
        rw [hstep]
        have hpos1 : 1 ≤ ledgerCount db1 id := by rw [hcnt]; exact hpos
        rw [ih _ hpos1]
        exact hcnt
      | true =>
        have hstep : webhookProcessItem u st now cal (db, cnt, tr) (m, c)
            = (insertSubscription db1
                (subscriptionRowFor u m c (computeEndDate c m.date)
                  (createReminder now (computeEndDate c m.date)
                    st.reminderDaysBefore (cal m))),
              ({ cnt with processed := cnt.processed + 1, subscriptions := cnt.subscriptions + 1 } : Counts),
              tr ++ [Event.insertLedger m.id] ++ [Event.insertSub u.id m.subject]) := by
          simp [webhookProcessItem, hins, hq]
        rw [hstep]
        have hcnt2 : ledgerCount (insertSubscription db1
            (subscriptionRowFor u m c (computeEndDate c m.date)
              (createReminder now (computeEndDate c m.date)
                st.reminderDaysBefore (cal m)))) id = ledgerCount db id := by
          rw [ledgerCount_insertSubscription]; exact hcnt
        have hpos2 : 1 ≤ ledgerCount (insertSubscription db1
            (subscriptionRowFor u m c (computeEndDate c m.date)
              (createReminder now (computeEndDate c m.date)
                st.reminderDaysBefore (cal m)))) id := by
          rw [hcnt2]; exact hpos
        rw [ih _ hpos2]
        exact hcnt2

theorem webhookFold_users (u : UserRow) (st : SettingsRow) (now : Int)
    (cal : Msg → CalendarOutcome) :
    ∀ (items : List (Msg × EmailClassification)) (acc : DB × Counts × List Event),
      (items.foldl (webhookProcessItem u st now cal) acc).1.users
        = acc.1.users := by
  intro items
  induction items with
  | nil => intro acc; rfl
  | cons item rest ih =>
    rintro ⟨db, cnt, tr⟩
    obtain ⟨m, c⟩ := item
    rw [List.foldl_cons]
    cases hins : insertProcessedEmail db ⟨u.id, m.id, c.is_subscription⟩ with
    | error e =>
      have hstep : webhookProcessItem u st now cal (db, cnt, tr) (m, c)
          = (db, { cnt with errors := cnt.errors + 1 }, tr) := by
        simp [webhookProcessItem, hins]
      rw [hstep]; exact ih _
    | ok db1 =>
      have husers : db1.users = db.users := (insert_ok_others hins).1
      cases hq : qualifies c with
      | false =>
        have hstep : webhookProcessItem u st now cal (db, cnt, tr) (m, c)
            = (db1, { cnt with processed := cnt.processed + 1 },
                tr ++ [Event.insertLedger m.id]) := by
          simp [webhookProcessItem, hins, hq]
        rw [hstep, ih _]; exact husers
      | true =>
        have hstep : webhookProcessItem u st now cal (db, cnt, tr) (m, c)
            = (insertSubscription db1
                (subscriptionRowFor u m c (computeEndDate c m.date)
                  (createReminder now (computeEndDate c m.date)
                    st.reminderDaysBefore (cal m))),
              ({ cnt with processed := cnt.processed + 1, subscriptions := cnt.subscriptions + 1 } : Counts),
              tr ++ [Event.insertLedger m.id] ++ [Event.insertSub u.id m.subject]) := by
          simp [webhookProcessItem, hins, hq]
        rw [hstep, ih _]
        exact husers

theorem webhookFold_events (u : UserRow) (st : SettingsRow) (now : Int)
    (cal : Msg → CalendarOutcome) :
    ∀ (items : List (Msg × EmailClassification)) (acc : DB × Counts × List Event)
      (e : Event), e ∈ (items.foldl (webhookProcessItem u st now cal) acc).2.2 →
      e ∈ acc.2.2 ∨ (∃ mid, e = Event.insertLedger mid)
        ∨ (∃ uid s, e = Event.insertSub uid s) := by
  intro items
  induction items with
  | nil => intro acc e he; exact Or.inl he
  | cons item rest ih =>
    rintro ⟨db, cnt, tr⟩ e he
    obtain ⟨m, c⟩ := item
    rw [List.foldl_cons] at he
    cases hins : insertProcessedEmail db ⟨u.id, m.id, c.is_subscription⟩ with
    | error err =>
      have hstep : webhookProcessItem u st now cal (db, cnt, tr) (m, c)
          = (db, { cnt with errors := cnt.errors + 1 }, tr) := by
        simp [webhookProcessItem, hins]
      rw [hstep] at he
      have h3 := ih _ e he
      exact h3
    | ok db1 =>
      cases hq : qualifies c with
      | false =>
        have hstep : webhookProcessItem u st now cal (db, cnt, tr) (m, c)
            = (db1, { cnt with processed := cnt.processed + 1 },
                tr ++ [Event.insertLedger m.id]) := by
          simp [webhookProcessItem, hins, hq]
        rw [hstep] at he
        rcases ih _ e he with h | h | h
        · rcases List.mem_append.mp h with h' | h'
          · exact Or.inl h'
          · exact Or.inr (Or.inl ⟨m.id, List.mem_singleton.mp h'⟩)
        · exact Or.inr (Or.inl h)
        · exact Or.inr (Or.inr h)
      | true =>
        have hstep : webhookProcessItem u st now cal (db, cnt, tr) (m, c)
            = (insertSubscription db1
                (subscriptionRowFor u m c (computeEndDate c m.date)
                  (createReminder now (computeEndDate c m.date)
                    st.reminderDaysBefore (cal m))),
              ({ cnt with processed := cnt.processed + 1, subscriptions := cnt.subscriptions + 1 } : Counts),
              tr ++ [Event.insertLedger m.id] ++ [Event.insertSub u.id m.subject]) := by
          simp [webhookProcessItem, hins, hq]
        rw [hstep] at he
        rcases ih _ e he with h | h | h
        · rcases List.mem_append.mp h with h' | h'
          · rcases List.mem_append.mp h' with h'' | h''
            · exact Or.inl h''
            · exact Or.inr (Or.inl ⟨m.id, List.mem_singleton.mp h''⟩)
          · exact Or.inr (Or.inr ⟨u.id, m.subject, List.mem_singleton.mp h'⟩)
        · exact Or.inr (Or.inl h)
        · exact Or.inr (Or.inr h)

theorem webhookFold_trace (u : UserRow) (st : SettingsRow) (now : Int)
    (cal : Msg → CalendarOutcome) :
    ∀ (items : List (Msg × EmailClassification)) (acc : DB × Counts × List Event),
      ∃ ext, (items.foldl (webhookProcessItem u st now cal) acc).2.2
          = acc.2.2 ++ ext
        ∧ ∀ e ∈ ext, (∃ mid, e = Event.insertLedger mid)
            ∨ (∃ uid s, e = Event.insertSub uid s) := by
  intro items
  induction items with
  | nil =>
    intro acc
    exact ⟨[], by simp, by simp⟩
  | cons item rest ih =>
    rintro ⟨db, cnt, tr⟩
    obtain ⟨m, c⟩ := item
    rw [List.foldl_cons]
    cases hins : insertProcessedEmail db ⟨u.id, m.id, c.is_subscription⟩ with
    | error err =>
      have hstep : webhookProcessItem u st now cal (db, cnt, tr) (m, c)
          = (db, ({ cnt with errors := cnt.errors + 1 } : Counts), tr) := by
        simp [webhookProcessItem, hins]
      rw [hstep]
      obtain ⟨ext, hext, hall⟩ := ih (db, ({ cnt with errors := cnt.errors + 1 } : Counts), tr)
      exact ⟨ext, hext, hall⟩
    | ok db1 =>
      cases hq : qualifies c with
      | false =>
        have hstep : webhookProcessItem u st now cal (db, cnt, tr) (m, c)
            = (db1, ({ cnt with processed := cnt.processed + 1 } : Counts),
                tr ++ [Event.insertLedger m.id]) := by
          simp [webhookProcessItem, hins, hq]
        rw [hstep]
        obtain ⟨ext, hext, hall⟩ := ih (db1,
          ({ cnt with processed := cnt.processed + 1 } : Counts),
          tr ++ [Event.insertLedger m.id])
        refine ⟨[Event.insertLedger m.id] ++ ext, ?_, ?_⟩
        · rw [hext]; simp
        · intro e he
          rcases List.mem_append.mp he with h' | h'
          · exact Or.inl ⟨m.id, List.mem_singleton.mp h'⟩
          · exact hall e h'
      | true =>
        have hstep : webhookProcessItem u st now cal (db, cnt, tr) (m, c)
            = (insertSubscription db1
                (subscriptionRowFor u m c (computeEndDate c m.date)
                  (createReminder now (computeEndDate c m.date)
                    st.reminderDaysBefore (cal m))),
              ({ cnt with processed := cnt.processed + 1, subscriptions := cnt.subscriptions + 1 } : Counts),
              tr ++ [Event.insertLedger m.id] ++ [Event.insertSub u.id m.subject]) := by
          simp [webhookProcessItem, hins, hq]
        rw [hstep]
        obtain ⟨ext, hext, hall⟩ := ih (insertSubscription db1
          (subscriptionRowFor u m c (computeEndDate c m.date)
            (createReminder now (computeEndDate c m.date)
              st.reminderDaysBefore (cal m))),
          ({ cnt with processed := cnt.processed + 1, subscriptions := cnt.subscriptions + 1 } : Counts),
          tr ++ [Event.insertLedger m.id] ++ [Event.insertSub u.id m.subject])
        refine ⟨[Event.insertLedger m.id] ++ [Event.insertSub u.id m.subject] ++ ext,
          ?_, ?_⟩
        · rw [hext]; simp
        · intro e he
          rcases List.mem_append.mp he with h' | h'
          · rcases List.mem_append.mp h' with h'' | h''
            · exact Or.inl ⟨m.id, List.mem_singleton.mp h''⟩
            · exact Or.inr ⟨u.id, m.subject, List.mem_singleton.mp h''⟩
          · exact hall e h'

theorem webhookPipeline_ledgerCount (u : UserRow) (st : SettingsRow)
    (push : PushData) (resolve : String → List Msg × Option String)
    (classify : Msg → Except String EmailClassification)
    (cal : Msg → CalendarOutcome) (now : Int) (db : DB) (id : String)
    (h : 1 ≤ ledgerCount db id) :
    ledgerCount (webhookPipeline u st push resolve classify cal now db).db id
      = ledgerCount db id := by
  simp only [webhookPipeline]
  split
  · rfl
  · split
    · rfl
    · have h1 : 1 ≤ ledgerCount
          (updateUserCursor db u.id
            (jsOrOptStr (resolve (jsOrOptStr u.gmailHistoryId push.historyId)).2
              push.historyId)) id := h
      rw [webhookFold_ledgerCount u st now cal id _ _ h1]
      rfl

theorem webhookPOST_ledgerCount (push : PushData) (tokenResult : Option String)
    (resolve : String → List Msg × Option String)
    (classify : Msg → Except String EmailClassification)
    (cal : Msg → CalendarOutcome) (now : Int) (db : DB) (id : String)
    (h : 1 ≤ ledgerCount db id) :
    ledgerCount (webhookPOST push tokenResult resolve classify cal now db).db id
      = ledgerCount db id := by
  simp only [webhookPOST]
  split
  · rfl
  · split
    · rfl
    · split
      · rfl
      · split
        · rfl
        · split
          · rfl
          · exact webhookPipeline_ledgerCount _ _ _ _ _ _ _ _ _ h

theorem webhookFold_no_classify (u : UserRow) (st : SettingsRow) (now : Int)
    (cal : Msg → CalendarOutcome) (items : List (Msg × EmailClassification))
    (acc : DB × Counts × List Event) (mid : String)
    (h : Event.classify mid ∉ acc.2.2) :
    Event.classify mid ∉
      (items.foldl (webhookProcessItem u st now cal) acc).2.2 := by
  obtain ⟨ext, hext, hall⟩ := webhookFold_trace u st now cal items acc
  rw [hext]
  intro hmem
  rcases List.mem_append.mp hmem with h1 | h1
  · exact h h1
  · rcases hall _ h1 with ⟨mid', h'⟩ | ⟨uid, s, h'⟩ <;> cases h'

theorem webhookPipeline_no_reclassify (u : UserRow) (st : SettingsRow)
    (push : PushData) (resolve : String → List Msg × Option String)
    (classify : Msg → Except String EmailClassification)
    (cal : Msg → CalendarOutcome) (now : Int) (db : DB) (mid : String)
    (h : ledgerHas db u.id mid = true) :
    Event.classify mid ∉
      (webhookPipeline u st push resolve classify cal now db).trace := by
  simp only [webhookPipeline]
  split
  · simp
  · split
    · simp
    · apply webhookFold_no_classify
      intro hmem
      rcases List.mem_append.mp hmem with hmem2 | hmem2
      · simp at hmem2
      · rw [List.mem_map] at hmem2
        obtain ⟨m, hm, heq⟩ := hmem2
        have hid : m.id = mid := by
          cases heq; rfl
        rw [List.mem_filter] at hm
        obtain ⟨hmnp, hmc⟩ := hm
        simp only [decide_eq_true_eq] at hmc
        apply hmc
        -- the already-processed id set does contain m.id
        simp only [ledgerHas, List.any_eq_true, decide_eq_true_eq] at h
        obtain ⟨p, hp, hpu, hpm⟩ := h
        have hmid_in_ids :
            m.id ∈ (((resolve (jsOrOptStr u.gmailHistoryId push.historyId)).1.filter
              (fun m => ¬ isPromo m)).map (fun m => m.id)) :=
          List.mem_map_of_mem (fun m => m.id) hmnp
        have hp_in : p ∈ (updateUserCursor db u.id
            (jsOrOptStr (resolve (jsOrOptStr u.gmailHistoryId push.historyId)).2
              push.historyId)).processedEmails.filter
            (fun q => q.userId = u.id ∧
              (((resolve (jsOrOptStr u.gmailHistoryId push.historyId)).1.filter
                (fun m => ¬ isPromo m)).map (fun m => m.id)).contains
                  q.gmailMessageId) := by
          rw [List.mem_filter]
          refine ⟨hp, ?_⟩
          simp only [decide_eq_true_eq]
          refine ⟨hpu, ?_⟩
          apply List.elem_eq_true_of_mem
          rw [hpm, ← hid]
          exact hmid_in_ids
        apply List.elem_eq_true_of_mem
        rw [List.mem_map]
        exact ⟨p, hp_in, by rw [hpm, hid]⟩

theorem webhookPipeline_dedup_skip (u : UserRow) (st : SettingsRow)
    (push : PushData) (resolve : String → List Msg × Option String)
    (classify : Msg → Except String EmailClassification)
    (cal : Msg → CalendarOutcome) (now : Int) (db : DB)
    (h : ∀ m ∈ (resolve (jsOrOptStr u.gmailHistoryId push.historyId)).1,
      ledgerHas db u.id m.id = true) :
    (webhookPipeline u st push resolve classify cal now db).db.subscriptions
      = db.subscriptions := by
  simp only [webhookPipeline]
  split
  · rfl
  · rename_i hne
    have htp : ((resolve (jsOrOptStr u.gmailHistoryId push.historyId)).1.filter
        (fun m => ¬ isPromo m)).filter
        (fun m => ¬ ((((updateUserCursor db u.id
            (jsOrOptStr (resolve (jsOrOptStr u.gmailHistoryId push.historyId)).2
              push.historyId)).processedEmails.filter
            (fun p => p.userId = u.id ∧
              (((resolve (jsOrOptStr u.gmailHistoryId push.historyId)).1.filter
                (fun m => ¬ isPromo m)).map (fun m => m.id)).contains
                  p.gmailMessageId)).map (fun p => p.gmailMessageId)).contains
              m.id)) = [] := by
      rw [List.filter_eq_nil_iff]
      intro m hm hdec
      simp only [decide_eq_true_eq] at hdec
      apply hdec
      have hmmsg : m ∈ (resolve (jsOrOptStr u.gmailHistoryId push.historyId)).1 :=
        List.mem_of_mem_filter hm
      have hledger := h m hmmsg
      simp only [ledgerHas, List.any_eq_true, decide_eq_true_eq] at hledger
      obtain ⟨p, hp, hpu, hpm⟩ := hledger
      have hmid_in_ids :
          m.id ∈ (((resolve (jsOrOptStr u.gmailHistoryId push.historyId)).1.filter
            (fun m => ¬ isPromo m)).map (fun m => m.id)) :=
        List.mem_map_of_mem (fun m => m.id) hm
      apply List.elem_eq_true_of_mem
      rw [List.mem_map]
      refine ⟨p, ?_, hpm⟩
      rw [List.mem_filter]
      refine ⟨hp, ?_⟩
      simp only [decide_eq_true_eq]
      refine ⟨hpu, ?_⟩
      apply List.elem_eq_true_of_mem
      rw [hpm]
      exact hmid_in_ids
    rw [if_pos htp]
    rfl

theorem webhookFold_head_tail (u : UserRow) (st : SettingsRow) (now : Int)
    (cal : Msg → CalendarOutcome) (items : List (Msg × EmailClassification))
    (db1 : DB) (cnt : Counts) (v : String) (toP : List Msg) :
    ((items.foldl (webhookProcessItem u st now cal)
        (db1, cnt, Event.cursorUpdate v
          :: toP.map (fun m => Event.classify m.id))).2.2).head?
        = some (Event.cursorUpdate v)
    ∧ ∀ e ∈ ((items.foldl (webhookProcessItem u st now cal)
        (db1, cnt, Event.cursorUpdate v
          :: toP.map (fun m => Event.classify m.id))).2.2).tail,
        ∀ w, e ≠ Event.cursorUpdate w := by
  obtain ⟨ext, hext, hall⟩ :=
    webhookFold_trace u st now cal items
      (db1, cnt, Event.cursorUpdate v :: toP.map (fun m => Event.classify m.id))
  constructor
  · rw [hext]
    rfl
  · rw [hext]
    intro e he w
    have he' : e ∈ toP.map (fun m => Event.classify m.id) ++ ext := by
      simpa using he
    rcases List.mem_append.mp he' with h1 | h1
    · rw [List.mem_map] at h1
      obtain ⟨m, _, hmid⟩ := h1
      rw [← hmid]
      intro hcontra
      cases hcontra
    · rcases hall e h1 with ⟨mid, hmid⟩ | ⟨uid, s, hmid⟩ <;>
        (rw [hmid]; intro hcontra; cases hcontra)

theorem webhookPipeline_shape (u : UserRow) (st : SettingsRow)
    (push : PushData) (resolve : String → List Msg × Option String)
    (classify : Msg → Except String EmailClassification)
    (cal : Msg → CalendarOutcome) (now : Int) (db : DB) :
    (webhookPipeline u st push resolve classify cal now db).trace.head?
        = some (Event.cursorUpdate
            (jsOrOptStr (resolve (jsOrOptStr u.gmailHistoryId push.historyId)).2
              push.historyId))
    ∧ (∀ e ∈ (webhookPipeline u st push resolve classify cal now db).trace.tail,
        ∀ v, e ≠ Event.cursorUpdate v)
    ∧ (webhookPipeline u st push resolve classify cal now db).db.users
        = (updateUserCursor db u.id
            (jsOrOptStr (resolve (jsOrOptStr u.gmailHistoryId push.historyId)).2
              push.historyId)).users := by
  simp only [webhookPipeline]
  split
  · exact ⟨rfl, by simp, rfl⟩
  · split
    · exact ⟨rfl, by simp, rfl⟩
    · refine ⟨?_, ?_, ?_⟩
      · exact (webhookFold_head_tail u st now cal _ _ _ _ _).1
      · exact (webhookFold_head_tail u st now cal _ _ _ _ _).2
      · exact webhookFold_users u st now cal _ _

theorem manualLoop_ledgerCount (u : UserRow) (st? : Option SettingsRow)
    (now : Int) (classify : Msg → EmailClassification)
    (cal : Msg → CalendarOutcome) (id : String) :
    ∀ (msgs : List Msg) (db : DB) (cnt : Counts) (tr : List Event),
      1 ≤ ledgerCount db id →
      ledgerCount (manualLoop u st? now classify cal msgs db cnt tr).db id
        = ledgerCount db id := by
  intro msgs
  induction msgs with
  | nil => intro db cnt tr _; rfl
  | cons m rest ih =>
    intro db cnt tr h
    simp only [manualLoop]
    split
    · exact ih db cnt tr h
    · cases hins : insertProcessedEmail db ⟨u.id, m.id, (classify m).is_subscription⟩ with
      | error e => simp [hins]
      | ok db1 =>
        have hcnt : ledgerCount db1 id = ledgerCount db id :=
          ledgerCount_insert_ok_of_pos hins h
        have h1 : 1 ≤ ledgerCount db1 id := by rw [hcnt]; exact h
        simp only [hins]
        cases hq : qualifies (classify m) with
        | false =>
          simp only [hq, if_false, Bool.false_eq_true]
          refine (ih _ _ _ ?_).trans ?_
          · exact h1
          · exact hcnt
        | true =>
          simp only [hq, if_true]
          cases hsub : subsHas db1 u.id m.subject with
          | true =>
            simp only [hsub, if_true]
            refine (ih _ _ _ ?_).trans ?_
            · exact h1
            · exact hcnt
          | false =>
            simp only [hsub, Bool.false_eq_true, if_false]
            refine (ih _ _ _ ?_).trans ?_
            · exact h1
            · exact hcnt

theorem manualLoop_subsCount (u : UserRow) (st? : Option SettingsRow)
    (now : Int) (classify : Msg → EmailClassification)
    (cal : Msg → CalendarOutcome) (uid subj : String) :
    ∀ (msgs : List Msg) (db : DB) (cnt : Counts) (tr : List Event),
      subsCount db uid subj ≤ 1 →
      subsCount (manualLoop u st? now classify cal msgs db cnt tr).db uid subj
        ≤ 1 := by
  intro msgs
  induction msgs with
  | nil => intro db cnt tr h; exact h
  | cons m rest ih =>
    intro db cnt tr h
    simp only [manualLoop]
    split
    · exact ih db cnt tr h
    · cases hins : insertProcessedEmail db ⟨u.id, m.id, (classify m).is_subscription⟩ with
      | error e => simp only [hins]; exact h
      | ok db1 =>
        have hpre : subsCount db1 uid subj = subsCount db uid subj :=
          subsCount_insert_ok hins uid subj
        have h1 : subsCount db1 uid subj ≤ 1 := by rw [hpre]; exact h
        simp only [hins]
        cases hq : qualifies (classify m) with
        | false =>
          simp only [hq, if_false, Bool.false_eq_true]
          exact ih _ _ _ h1
        | true =>
          simp only [hq, if_true]
          cases hsub : subsHas db1 u.id m.subject with
          | true =>
            simp only [hsub, if_true]
            exact ih _ _ _ h1
          | false =>
            simp only [hsub, Bool.false_eq_true, if_false]
            refine ih _ _ _ ?_
            rw [subsCount_insertSubscription]
            simp only [subscriptionRowFor]
            split
            · rename_i hmatch
              have h0 : subsCount db1 uid subj = 0 := by
                rcases hmatch with ⟨h_u, h_s⟩
                rw [← h_u, ← h_s]
                exact subsHas_false_count_zero hsub
              omega
            · omega

theorem manualLoop_no_reclassify (u : UserRow) (st? : Option SettingsRow)
    (now : Int) (classify : Msg → EmailClassification)
    (cal : Msg → CalendarOutcome) (mid : String) :
    ∀ (msgs : List Msg) (db : DB) (cnt : Counts) (tr : List Event),
      ledgerHas db u.id mid = true →
      Event.classify mid ∉ tr →
      Event.classify mid ∉
        (manualLoop u st? now classify cal msgs db cnt tr).trace := by
  intro msgs
  induction msgs with
  | nil => intro db cnt tr _ htr; exact htr
  | cons m rest ih =>
    intro db cnt tr hledger htr
    simp only [manualLoop]
    split
    · exact ih db cnt tr hledger htr
    · rename_i hskip
      have hne : m.id ≠ mid := by
        intro heq
        exact hskip (heq ▸ hledger)
      have htr1 : Event.classify mid ∉ tr ++ [Event.classify m.id] := by
        intro hmem
        rcases List.mem_append.mp hmem with h1 | h1
        · exact htr h1
        · have := List.mem_singleton.mp h1
          cases this
          exact hne rfl
      cases hins : insertProcessedEmail db ⟨u.id, m.id, (classify m).is_subscription⟩ with
      | error e => simp only [hins]; exact htr1
      | ok db1 =>
        have hledger1 : ledgerHas db1 u.id mid = true :=
          ledgerHas_insert_ok hins hledger
        have htr2 : Event.classify mid ∉
            (tr ++ [Event.classify m.id]) ++ [Event.insertLedger m.id] := by
          intro hmem
          rcases List.mem_append.mp hmem with h1 | h1
          · exact htr1 h1
          · cases List.mem_singleton.mp h1
        simp only [hins]
        cases hq : qualifies (classify m) with
        | false =>
          simp only [hq, if_false, Bool.false_eq_true]
          exact ih _ _ _ hledger1 htr2
        | true =>
          simp only [hq, if_true]
          cases hsub : subsHas db1 u.id m.subject with
          | true =>
            simp only [hsub, if_true]
            exact ih _ _ _ hledger1 htr2
          | false =>
            simp only [hsub, Bool.false_eq_true, if_false]
            refine ih _ _ _ ?_ ?_
            · rw [ledgerHas_insertSubscription]
              exact hledger1
            · intro hmem
              rcases List.mem_append.mp hmem with h1 | h1
              · exact htr2 h1
              · cases List.mem_singleton.mp h1

theorem scanLoop_ledgerCount (u : UserRow) (st? : Option SettingsRow)
    (force : Bool) (now : Int) (classify : Msg → EmailClassification)
    (cal : Msg → CalendarOutcome) (id : String) :
    ∀ (msgs : List Msg) (db : DB) (tr : List Event),
      1 ≤ ledgerCount db id →
      ledgerCount (scanLoop u st? force now classify cal msgs db tr).db id
        = ledgerCount db id := by
  intro msgs
  induction msgs with
  | nil => intro db tr _; rfl
  | cons m rest ih =>
    intro db tr h
    cases hex : ledgerHas db u.id m.id with
    | true =>
      cases force with
      | true =>
        simp only [scanLoop, hex]
        norm_num
        cases hq : qualifies (classify m) with
        | false =>
          simp only [hq, if_false, Bool.false_eq_true]
          exact (ih _ _ h)
        | true =>
          simp only [hq, if_true]
          cases hsub : subsHas db u.id m.subject with
          | true =>
            simp only [hsub, if_true]
            exact (ih _ _ h)
          | false =>
            simp only [hsub, Bool.false_eq_true, if_false]
            refine (ih _ _ ?_).trans ?_
            · exact h
            · rfl
      | false =>
        simp only [scanLoop, hex]
        norm_num
        exact (ih _ _ h)
    | false =>
      simp only [scanLoop, hex]
      norm_num
      cases hins : insertProcessedEmail db ⟨u.id, m.id, (classify m).is_subscription⟩ with
      | error e => simp only [hins]
      | ok db1 =>
        have hcnt : ledgerCount db1 id = ledgerCount db id :=
          ledgerCount_insert_ok_of_pos hins h
        have h1 : 1 ≤ ledgerCount db1 id := by rw [hcnt]; exact h
        simp only [hins]
        cases hq : qualifies (classify m) with
        | false =>
          simp only [hq, if_false, Bool.false_eq_true]
          refine (ih _ _ ?_).trans ?_
          · exact h1
          · exact hcnt
        | true =>
          simp only [hq, if_true]
          cases hsub : subsHas db1 u.id m.subject with
          | true =>
            simp only [hsub, if_true]
            refine (ih _ _ ?_).trans ?_
            · exact h1
            · exact hcnt
          | false =>
            simp only [hsub, Bool.false_eq_true, if_false]
            refine (ih _ _ ?_).trans ?_
            · exact h1
            · exact hcnt

theorem scanLoop_subsCount (u : UserRow) (st? : Option SettingsRow)
    (force : Bool) (now : Int) (classify : Msg → EmailClassification)
    (cal : Msg → CalendarOutcome) (uid subj : String) :
    ∀ (msgs : List Msg) (db : DB) (tr : List Event),
      subsCount db uid subj ≤ 1 →
      subsCount (scanLoop u st? force now classify cal msgs db tr).db uid subj
        ≤ 1 := by
  intro msgs
  induction msgs with
  | nil => intro db tr h; exact h
  | cons m rest ih =>
    intro db tr h
    cases hex : ledgerHas db u.id m.id with
    | true =>
      cases force with
      | true =>
        simp only [scanLoop, hex]
        norm_num
        cases hq : qualifies (classify m) with
        | false =>
          simp only [hq, if_false, Bool.false_eq_true]
          exact ih _ _ h
        | true =>
          simp only [hq, if_true]
          cases hsub : subsHas db u.id m.subject with
          | true =>
            simp only [hsub, if_true]
            exact ih _ _ h
          | false =>
            simp only [hsub, Bool.false_eq_true, if_false]
            refine ih _ _ ?_
            rw [subsCount_insertSubscription]
            simp only [subscriptionRowFor]
            split
            · rename_i hmatch
              have h0 : subsCount db uid subj = 0 := by
                rcases hmatch with ⟨h_u, h_s⟩
                rw [← h_u, ← h_s]
                exact subsHas_false_count_zero hsub
              omega
            · omega
      | false =>
        simp only [scanLoop, hex]
        norm_num
        exact ih _ _ h
    | false =>
      simp only [scanLoop, hex]
      norm_num
      cases hins : insertProcessedEmail db ⟨u.id, m.id, (classify m).is_subscription⟩ with
      | error e => simp only [hins]; exact h
      | ok db1 =>
        have hpre : subsCount db1 uid subj = subsCount db uid subj :=
          subsCount_insert_ok hins uid subj
        have h1 : subsCount db1 uid subj ≤ 1 := by rw [hpre]; exact h
        simp only [hins]
        cases hq : qualifies (classify m) with
        | false =>
          simp only [hq, if_false, Bool.false_eq_true]
          exact ih _ _ h1
        | true =>
          simp only [hq, if_true]
          cases hsub : subsHas db1 u.id m.subject with
          | true =>
            simp only [hsub, if_true]
            exact ih _ _ h1
          | false =>
            simp only [hsub, Bool.false_eq_true, if_false]
            refine ih _ _ ?_
            rw [subsCount_insertSubscription]
            simp only [subscriptionRowFor]
            split
            · rename_i hmatch
              have h0 : subsCount db1 uid subj = 0 := by
                rcases hmatch with ⟨h_u, h_s⟩
                rw [← h_u, ← h_s]
                exact subsHas_false_count_zero hsub
              omega
            · omega

theorem scanLoop_no_reclassify (u : UserRow) (st? : Option SettingsRow)
    (now : Int) (classify : Msg → EmailClassification)
    (cal : Msg → CalendarOutcome) (mid : String) :
    ∀ (msgs : List Msg) (db : DB) (tr : List Event),
      ledgerHas db u.id mid = true →
      Event.classify mid ∉ tr →
      Event.classify mid ∉
        (scanLoop u st? false now classify cal msgs db tr).trace := by
  intro msgs
  induction msgs with
  | nil => intro db tr _ htr; exact htr
  | cons m rest ih =>
    intro db tr hledger htr
    cases hex : ledgerHas db u.id m.id with
    | true =>
      simp only [scanLoop, hex]
      norm_num
      exact ih _ _ hledger htr
    | false =>
      have hne : m.id ≠ mid := by
        intro heq
        rw [heq] at hex
        rw [hex] at hledger
        cases hledger
      have htr1 : Event.classify mid ∉ tr ++ [Event.classify m.id] := by
        intro hmem
        rcases List.mem_append.mp hmem with h1 | h1
        · exact htr h1
        · have := List.mem_singleton.mp h1
          cases this
          exact hne rfl
      have htr2 : Event.classify mid ∉
          tr ++ [Event.classify m.id, Event.insertLedger m.id] := by
        intro hmem
        rcases List.mem_append.mp hmem with h1 | h1
        · exact htr h1
        · simp only [List.mem_cons, List.not_mem_nil, or_false] at h1
          rcases h1 with h1 | h1
          · injection h1 with h1'
            exact hne h1'.symm
          · cases h1
      have htr3 : Event.classify mid ∉
          tr ++ [Event.classify m.id, Event.insertLedger m.id,
            Event.insertSub u.id m.subject] := by
        intro hmem
        rcases List.mem_append.mp hmem with h1 | h1
        · exact htr h1
        · simp only [List.mem_cons, List.not_mem_nil, or_false] at h1
          rcases h1 with h1 | h1 | h1
          · injection h1 with h1'
            exact hne h1'.symm
          · cases h1
          · cases h1
      simp only [scanLoop, hex]
      norm_num
      cases hins : insertProcessedEmail db ⟨u.id, m.id, (classify m).is_subscription⟩ with
      | error e => simp only [hins]; exact htr1
      | ok db1 =>
        have hledger1 : ledgerHas db1 u.id mid = true :=
          ledgerHas_insert_ok hins hledger
        simp only [hins]
        cases hq : qualifies (classify m) with
        | false =>
          simp only [hq, if_false, Bool.false_eq_true]
          exact ih _ _ hledger1 htr2
        | true =>
          simp only [hq, if_true]
          cases hsub : subsHas db1 u.id m.subject with
          | true =>
            simp only [hsub, if_true]
            exact ih _ _ hledger1 htr2
          | false =>
            simp only [hsub, Bool.false_eq_true, if_false]
            refine ih _ _ ?_ ?_
            · rw [ledgerHas_insertSubscription]
              exact hledger1
            · exact htr3

theorem manualLoop_enabled_irrelevant (u : UserRow) (now : Int)
    (classify : Msg → EmailClassification) (cal : Msg → CalendarOutcome)
    (s1 s2 : SettingsRow) (hrd : s1.reminderDaysBefore = s2.reminderDaysBefore) :
    ∀ (msgs : List Msg) (db : DB) (cnt : Counts) (tr : List Event),
      manualLoop u (some s1) now classify cal msgs db cnt tr
        = manualLoop u (some s2) now classify cal msgs db cnt tr := by
  intro msgs
  induction msgs with
  | nil => intro db cnt tr; rfl
  | cons m rest ih =>
    intro db cnt tr
    simp only [manualLoop]
    split
    · exact ih _ _ _
    · cases hins : insertProcessedEmail db ⟨u.id, m.id, (classify m).is_subscription⟩ with
      | error e => simp only [hins]
      | ok db1 =>
        simp only [hins]
        cases hq : qualifies (classify m) with
        | false =>
          simp only [hq, if_false, Bool.false_eq_true]
          exact ih _ _ _
        | true =>
          simp only [hq, if_true]
          cases hsub : subsHas db1 u.id m.subject with
          | true =>
            simp only [hsub, if_true]
            exact ih _ _ _
          | false =>
            simp only [hsub, Bool.false_eq_true, if_false]
            rw [hrd]
            exact ih _ _ _

theorem manualSyncPOST_subsCount (sessionEmail tokenResult : Option String)
    (recent : List Msg) (classify : Msg → EmailClassification)
    (cal : Msg → CalendarOutcome) (now : Int) (db : DB) (uid subj : String)
    (h : subsCount db uid subj ≤ 1) :
    subsCount (manualSyncPOST sessionEmail tokenResult recent classify cal
      now db).db uid subj ≤ 1 := by
  simp only [manualSyncPOST]
  split
  · exact h
  · split
    · exact h
    · split
      · exact h
      · exact manualLoop_subsCount _ _ _ _ _ _ _ _ _ _ _ h

theorem scanRecentGET_subsCount (email : Option String) (force : Bool)
    (tokenResult : Option String) (recent : List Msg)
    (classify : Msg → EmailClassification) (cal : Msg → CalendarOutcome)
    (now : Int) (db : DB) (uid subj : String)
    (h : subsCount db uid subj ≤ 1) :
    subsCount (scanRecentGET email force tokenResult recent classify cal
      now db).db uid subj ≤ 1 := by
  simp only [scanRecentGET]
  split
  · exact h
  · split
    · exact h
    · split
      · exact h
      · exact scanLoop_subsCount _ _ _ _ _ _ _ _ _ _ _ h

theorem manualSyncPOST_ledgerCount (sessionEmail tokenResult : Option String)
    (recent : List Msg) (classify : Msg → EmailClassification)
    (cal : Msg → CalendarOutcome) (now : Int) (db : DB) (id : String)
    (h : 1 ≤ ledgerCount db id) :
    ledgerCount (manualSyncPOST sessionEmail tokenResult recent classify cal
      now db).db id = ledgerCount db id := by
  simp only [manualSyncPOST]
  split
  · rfl
  · split
    · rfl
    · split
      · rfl
      · exact manualLoop_ledgerCount _ _ _ _ _ _ _ _ _ _ h

theorem scanRecentGET_ledgerCount (email : Option String) (force : Bool)
    (tokenResult : Option String) (recent : List Msg)
    (classify : Msg → EmailClassification) (cal : Msg → CalendarOutcome)
    (now : Int) (db : DB) (id : String)
    (h : 1 ≤ ledgerCount db id) :
    ledgerCount (scanRecentGET email force tokenResult recent classify cal
      now db).db id = ledgerCount db id := by
  simp only [scanRecentGET]
  split
  · rfl
  · split
    · rfl
    · split
      · rfl
      · exact scanLoop_ledgerCount _ _ _ _ _ _ _ _ _ _ h

theorem webhookPOST_no_reclassify (push : PushData)
    (tokenResult : Option String)
    (resolve : String → List Msg × Option String)
    (classify : Msg → Except String EmailClassification)
    (cal : Msg → CalendarOutcome) (now : Int) (db : DB) (u : UserRow)
    (mid : String) (hu : findUserByEmail db push.emailAddress = some u)
    (h : ledgerHas db u.id mid = true) :
    Event.classify mid ∉
      (webhookPOST push tokenResult resolve classify cal now db).trace := by
  simp only [webhookPOST, hu]
  split
  · simp [noopRun]
  · split
    · simp [noopRun]
    · split
      · simp [noopRun]
      · split
        · simp [noopRun]
        · exact webhookPipeline_no_reclassify _ _ _ _ _ _ _ _ _ h

theorem webhookPOST_dedup_skip (push : PushData)
    (tokenResult : Option String)
    (resolve : String → List Msg × Option String)
    (classify : Msg → Except String EmailClassification)
    (cal : Msg → CalendarOutcome) (now : Int) (db : DB) (u : UserRow)
    (hu : findUserByEmail db push.emailAddress = some u)
    (h : ∀ m ∈ (resolve (jsOrOptStr u.gmailHistoryId push.historyId)).1,
      ledgerHas db u.id m.id = true) :
    (webhookPOST push tokenResult resolve classify cal now db).db.subscriptions
      = db.subscriptions := by
  simp only [webhookPOST, hu]
  split
  · rfl
  · split
    · rfl
    · split
      · rfl
      · split
        · rfl
        · exact webhookPipeline_dedup_skip _ _ _ _ _ _ _ _ h

theorem manualSyncPOST_no_reclassify (email : String)
    (tokenResult : Option String) (recent : List Msg)
    (classify : Msg → EmailClassification) (cal : Msg → CalendarOutcome)
    (now : Int) (db : DB) (u : UserRow) (mid : String)
    (hu : findUserByEmail db email = some u)
    (h : ledgerHas db u.id mid = true) :
    Event.classify mid ∉
      (manualSyncPOST (some email) tokenResult recent classify cal
        now db).trace := by
  simp only [manualSyncPOST, hu]
  split
  · simp [noopRun]
  · exact manualLoop_no_reclassify _ _ _ _ _ _ _ _ _ _ h (by simp)

theorem scanRecentGET_no_reclassify (email : String)
    (tokenResult : Option String) (recent : List Msg)
    (classify : Msg → EmailClassification) (cal : Msg → CalendarOutcome)
    (now : Int) (db : DB) (u : UserRow) (mid : String)
    (hu : findUserByEmail db email = some u)
    (h : ledgerHas db u.id mid = true) :
    Event.classify mid ∉
      (scanRecentGET (some email) false tokenResult recent classify cal
        now db).trace := by
  simp only [scanRecentGET, hu]
  split
  · simp [noopRun]
  · exact scanLoop_no_reclassify _ _ _ _ _ _ _ _ _ h (by simp)

/-! # Claims -/

/-! ## C1 — (account, subject) duplicate suppression -/

/-- C1 counterexample: the webhook entry point performs no
    (account, subject) lookup before inserting.  Starting from a database
    that already holds a subscription for (u1, "S1"), a webhook run over a
    fresh message with the same subject inserts a second subscription for
    the same (account, subject) pair — refuting the claim that every
    pipeline entry point checks and skips. -/
theorem webhook_subject_dup_counterexample :
    subsCount dbWithSub "u1" "S1" = 1
    ∧ subsCount runDupSubject.db "u1" "S1" = 2 := by
  exact ⟨by decide, by decide⟩

/-- C1 (amended): manual sync and the diagnostic scan check for an existing
    subscription with the same (account, subject) before inserting and skip
    when one exists — each preserves "at most one subscription per
    (account, subject)"; the webhook performs no such check, but re-observing
    already-recorded messages through the webhook leaves the subscription
    table unchanged, because their message-ids are dropped by the ledger
    dedup before classification. -/
theorem subject_dedup_amended :
    (∀ (sessionEmail tokenResult : Option String) (recent : List Msg)
      (classify : Msg → EmailClassification) (cal : Msg → CalendarOutcome)
      (now : Int) (db : DB) (uid subj : String),
      subsCount db uid subj ≤ 1 →
      subsCount (manualSyncPOST sessionEmail tokenResult recent classify cal
        now db).db uid subj ≤ 1)
    ∧ (∀ (email : Option String) (force : Bool) (tokenResult : Option String)
        (recent : List Msg) (classify : Msg → EmailClassification)
        (cal : Msg → CalendarOutcome) (now : Int) (db : DB) (uid subj : String),
        subsCount db uid subj ≤ 1 →
        subsCount (scanRecentGET email force tokenResult recent classify cal
          now db).db uid subj ≤ 1)
    ∧ (∀ (push : PushData) (tokenResult : Option String)
        (resolve : String → List Msg × Option String)
        (classify : Msg → Except String EmailClassification)
        (cal : Msg → CalendarOutcome) (now : Int) (db : DB) (u : UserRow),
        findUserByEmail db push.emailAddress = some u →
        (∀ m ∈ (resolve (jsOrOptStr u.gmailHistoryId push.historyId)).1,
          ledgerHas db u.id m.id = true) →
        (webhookPOST push tokenResult resolve classify cal
          now db).db.subscriptions = db.subscriptions) := by
  refine ⟨?_, ?_, ?_⟩
  · intro sessionEmail tokenResult recent classify cal now db uid subj h
    exact manualSyncPOST_subsCount _ _ _ _ _ _ _ _ _ h
  · intro email force tokenResult recent classify cal now db uid subj h
    exact scanRecentGET_subsCount _ _ _ _ _ _ _ _ _ _ h
  · intro push tokenResult resolve classify cal now db u hu h
    exact webhookPOST_dedup_skip _ _ _ _ _ _ _ _ hu h

/-- Witness for C1 (amended): concrete runs — a manual sync over a message
    whose subject already has a subscription keeps the count at one, and a
    webhook run whose sole resolved message is already in the ledger leaves
    the subscription table unchanged. -/
theorem subject_dedup_amended_witness :
    subsCount (manualSyncPOST (some "u@x.com") (some "tok")
        [mkMsg "m1" "S1" 100] classifyFixT calFixOk 0 dbWithSub).db
        "u1" "S1" ≤ 1
    ∧ (webhookPOST ⟨"u@x.com", "100"⟩ (some "tok")
        (fun _ => ([mkMsg "m1" "S1" 100], some "105"))
        classifyFixOk calFixOk 0 dbWithLedger).db.subscriptions
        = dbWithLedger.subscriptions := by
  constructor
  · exact subject_dedup_amended.1 (some "u@x.com") (some "tok")
      [mkMsg "m1" "S1" 100] classifyFixT calFixOk 0 dbWithSub "u1" "S1"
      (by decide)
  · exact subject_dedup_amended.2.2 ⟨"u@x.com", "100"⟩ (some "tok")
      (fun _ => ([mkMsg "m1" "S1" 100], some "105"))
      classifyFixOk calFixOk 0 dbWithLedger uFix (by decide) (by decide)

/-! ## C2 — ledger idempotence across trigger modes -/

/-- C2 counterexample: the diagnostic scan's dedup skip is
    `if (existing && !force)`; with `force=true` a message-id that already
    has a processed-message record ("m1") is classified again (a classify
    event for it appears in the run trace), refuting "never classified
    again under every trigger mode".  (It is still not inserted again.) -/
theorem force_rescan_counterexample :
    ledgerHas dbWithLedger "u1" "m1" = true
    ∧ runForceRescan.trace.contains (Event.classify "m1") = true
    ∧ ledgerCount runForceRescan.db "m1" = 1 := by
  exact ⟨by decide, by decide, by decide⟩

/-- C2 (amended): a message-id that already has a processed-message record
    for the account is never classified again by the webhook run, the
    manual sync, or the diagnostic scan without its force flag; and in
    every trigger mode (the forced diagnostic scan included) such a
    message-id is never inserted into the ledger again — the count of its
    ledger rows is unchanged by any run. -/
theorem ledger_idempotence_amended :
    (∀ (push : PushData) (tokenResult : Option String)
      (resolve : String → List Msg × Option String)
      (classify : Msg → Except String EmailClassification)
      (cal : Msg → CalendarOutcome) (now : Int) (db : DB) (u : UserRow)
      (mid : String), findUserByEmail db push.emailAddress = some u →
      ledgerHas db u.id mid = true →
      Event.classify mid ∉
        (webhookPOST push tokenResult resolve classify cal now db).trace)
    ∧ (∀ (email : String) (tokenResult : Option String) (recent : List Msg)
        (classify : Msg → EmailClassification) (cal : Msg → CalendarOutcome)
        (now : Int) (db : DB) (u : UserRow) (mid : String),
        findUserByEmail db email = some u →
        ledgerHas db u.id mid = true →
        Event.classify mid ∉
          (manualSyncPOST (some email) tokenResult recent classify cal
            now db).trace)
    ∧ (∀ (email : String) (tokenResult : Option String) (recent : List Msg)
        (classify : Msg → EmailClassification) (cal : Msg → CalendarOutcome)
        (now : Int) (db : DB) (u : UserRow) (mid : String),
        findUserByEmail db email = some u →
        ledgerHas db u.id mid = true →
        Event.classify mid ∉
          (scanRecentGET (some email) false tokenResult recent classify cal
            now db).trace)
    ∧ (∀ (push : PushData) (tokenResult : Option String)
        (resolve : String → List Msg × Option String)
        (classifyW : Msg → Except String EmailClassification)
        (classifyT : Msg → EmailClassification)
        (cal : Msg → CalendarOutcome) (now : Int) (db : DB) (id : String)
        (sessionEmail email : Option String) (force : Bool)
        (recent : List Msg), 1 ≤ ledgerCount db id →
        ledgerCount (webhookPOST push tokenResult resolve classifyW cal
            now db).db id = ledgerCount db id
        ∧ ledgerCount (manualSyncPOST sessionEmail tokenResult recent
            classifyT cal now db).db id = ledgerCount db id
        ∧ ledgerCount (scanRecentGET email force tokenResult recent
            classifyT cal now db).db id = ledgerCount db id) := by
  refine ⟨?_, ?_, ?_, ?_⟩
  · intro push tokenResult resolve classify cal now db u mid hu h
    exact webhookPOST_no_reclassify _ _ _ _ _ _ _ _ _ hu h
  · intro email tokenResult recent classify cal now db u mid hu h
    exact manualSyncPOST_no_reclassify _ _ _ _ _ _ _ _ _ hu h
  · intro email tokenResult recent classify cal now db u mid hu h
    exact scanRecentGET_no_reclassify _ _ _ _ _ _ _ _ _ hu h
  · intro push tokenResult resolve classifyW classifyT cal now db id
      sessionEmail email force recent h
    exact ⟨webhookPOST_ledgerCount _ _ _ _ _ _ _ _ h,
      manualSyncPOST_ledgerCount _ _ _ _ _ _ _ _ h,
      scanRecentGET_ledgerCount _ _ _ _ _ _ _ _ _ h⟩

/-- Witness for C2 (amended): concrete runs over the ledger that already
    records "m1" — no classify event for "m1" in a webhook run resolving
    it, and the forced diagnostic scan leaves its ledger row count at 1. -/
theorem ledger_idempotence_amended_witness :
    Event.classify "m1" ∉
      (webhookPOST ⟨"u@x.com", "100"⟩ (some "tok")
        (fun _ => ([mkMsg "m1" "S1" 100], some "105"))
        classifyFixOk calFixOk 0 dbWithLedger).trace
    ∧ ledgerCount (scanRecentGET (some "u@x.com") true (some "tok")
        [mkMsg "m1" "S1" 100] classifyFixT calFixOk 0 dbWithLedger).db "m1"
        = ledgerCount dbWithLedger "m1" := by
  constructor
  · exact ledger_idempotence_amended.1 ⟨"u@x.com", "100"⟩ (some "tok")
      (fun _ => ([mkMsg "m1" "S1" 100], some "105"))
      classifyFixOk calFixOk 0 dbWithLedger uFix "m1" (by decide) (by decide)
  · exact (ledger_idempotence_amended.2.2.2 ⟨"u@x.com", "100"⟩ (some "tok")
      (fun _ => ([mkMsg "m1" "S1" 100], some "105"))
      classifyFixOk classifyFixT calFixOk 0 dbWithLedger "m1"
      (some "u@x.com") (some "u@x.com") true [mkMsg "m1" "S1" 100]
      (by decide)).2.2

/-! ## C3 — advance-before-process cursor semantics -/

/-- C3: in every webhook (cursor-mode) run that passes the guards, the very
    first pipeline event is the cursor update — it precedes every classify
    and insert event of the run, no later event touches the cursor — and
    the value persisted is the resolution's new cursor, falling back to the
    notification's own history id when resolution returned none
    (`latestHistoryId || pushData.historyId`).  In the spec's scenario
    (stored cursor "90", notification hint "100", resolution returning two
    messages and new cursor "105") the persisted cursor is "105", not
    "100", and two processed-message records exist. -/
theorem cursor_advance_before_process :
    (∀ (push : PushData) (tokenResult : Option String)
      (resolve : String → List Msg × Option String)
      (classify : Msg → Except String EmailClassification)
      (cal : Msg → CalendarOutcome) (now : Int) (db : DB) (u : UserRow)
      (st : SettingsRow) (tok : String),
      findUserByEmail db push.emailAddress = some u →
      isTruthyOptStr u.googleAccessToken = true →
      findSettings db u.id = some st →
      st.enabled = true →
      tokenResult = some tok →
      (webhookPOST push tokenResult resolve classify cal now db).trace.head?
          = some (Event.cursorUpdate
              (jsOrOptStr (resolve (jsOrOptStr u.gmailHistoryId
                push.historyId)).2 push.historyId))
        ∧ (∀ e ∈ (webhookPOST push tokenResult resolve classify cal
            now db).trace.tail, ∀ v, e ≠ Event.cursorUpdate v)
        ∧ (webhookPOST push tokenResult resolve classify cal now db).db.users
            = (updateUserCursor db u.id
                (jsOrOptStr (resolve (jsOrOptStr u.gmailHistoryId
                  push.historyId)).2 push.historyId)).users)
    ∧ (runScenarioC3.db.users
          = [⟨"u1", "u@x.com", some "tok", some "105"⟩]
        ∧ runScenarioC3.db.processedEmails.length = 2
        ∧ ledgerCount runScenarioC3.db "m1" = 1
        ∧ ledgerCount runScenarioC3.db "m2" = 1
        ∧ runScenarioC3.trace.head? = some (Event.cursorUpdate "105")) := by
  constructor
  · intro push tokenResult resolve classify cal now db u st tok hu htok hst
      hen htokeq
    subst htokeq
    simp only [webhookPOST, hu, htok, hst, hen, not_true, if_false]
    norm_num
    exact webhookPipeline_shape u st push resolve classify cal now db
  · exact ⟨by decide, by decide, by decide, by decide, by decide⟩

/-- Witness for C3: the general statement applied at the scenario fixture
    (all five guard hypotheses hold concretely). -/
theorem cursor_advance_before_process_witness :
    (webhookPOST ⟨"u@x.com", "100"⟩ (some "tok") resolveFix classifyFixOk
        calFixOk 0 dbFix).trace.head?
      = some (Event.cursorUpdate
          (jsOrOptStr (resolveFix (jsOrOptStr uFix.gmailHistoryId "100")).2
            "100")) := by
  exact (cursor_advance_before_process.1 ⟨"u@x.com", "100"⟩ (some "tok")
    resolveFix classifyFixOk calFixOk 0 dbFix uFix sFix "tok"
    (by decide) (by decide) (by decide) (by decide) rfl).1

/-! ## C4 — the enabled flag gates classification work -/

/-- C4 counterexample: the manual-sync handler never consults the enabled
    flag.  With the fixture account's settings disabled, a manual sync over
    one fresh message still classifies it, inserts its processed-message
    record and materializes a subscription — refuting the claim that the
    gate applies to every entry point that performs new classification
    work. -/
theorem manual_sync_ignores_disabled_counterexample :
    findSettings dbDisabled "u1" = some sFixOff
    ∧ sFixOff.enabled = false
    ∧ runManualDisabled.counts.processed = 1
    ∧ runManualDisabled.db.processedEmails.length = 1
    ∧ runManualDisabled.db.subscriptions.length = 1
    ∧ runManualDisabled.trace.contains (Event.classify "m1") = true := by
  exact ⟨by decide, by decide, by decide, by decide, by decide, by decide⟩

/-- C4 (amended): the enabled flag gates the webhook entry point — when the
    account's settings row has `enabled = false` the webhook run exits as a
    no-op (database unchanged, no events, zero counts); the manual-sync
    loop, by contrast, never reads the flag: its behavior is identical for
    any two settings rows sharing the same reminder lead time, regardless
    of their enabled flags. -/
theorem enabled_gate_amended :
    (∀ (push : PushData) (tokenResult : Option String)
      (resolve : String → List Msg × Option String)
      (classify : Msg → Except String EmailClassification)
      (cal : Msg → CalendarOutcome) (now : Int) (db : DB) (u : UserRow)
      (st : SettingsRow),
      findUserByEmail db push.emailAddress = some u →
      findSettings db u.id = some st →
      st.enabled = false →
      webhookPOST push tokenResult resolve classify cal now db = noopRun db)
    ∧ (∀ (u : UserRow) (now : Int) (classify : Msg → EmailClassification)
        (cal : Msg → CalendarOutcome) (s1 s2 : SettingsRow),
        s1.reminderDaysBefore = s2.reminderDaysBefore →
        ∀ (msgs : List Msg) (db : DB) (cnt : Counts) (tr : List Event),
          manualLoop u (some s1) now classify cal msgs db cnt tr
            = manualLoop u (some s2) now classify cal msgs db cnt tr) := by
  constructor
  · intro push tokenResult resolve classify cal now db u st hu hst hen
    simp only [webhookPOST, hu, hst, hen]
    split
    · rfl
    · norm_num
  · intro u now classify cal s1 s2 hrd msgs db cnt tr
    exact manualLoop_enabled_irrelevant u now classify cal s1 s2 hrd
      msgs db cnt tr

/-- Witness for C4 (amended): the webhook over the disabled fixture account
    is a no-op, and the manual loop over a concrete message list gives the
    same result under disabled and enabled settings rows with the same
    lead time. -/
theorem enabled_gate_amended_witness :
    webhookPOST ⟨"u@x.com", "100"⟩ (some "tok") resolveFix classifyFixOk
        calFixOk 0 dbDisabled = noopRun dbDisabled
    ∧ manualLoop uFix (some sFixOff) 0 classifyFixT calFixOk
        [mkMsg "m1" "S1" 100] dbDisabled {} []
      = manualLoop uFix (some sFix) 0 classifyFixT calFixOk
        [mkMsg "m1" "S1" 100] dbDisabled {} [] := by
  constructor
  · exact enabled_gate_amended.1 ⟨"u@x.com", "100"⟩ (some "tok") resolveFix
      classifyFixOk calFixOk 0 dbDisabled uFix sFixOff (by decide) (by decide)
      (by decide)
  · exact enabled_gate_amended.2 uFix 0 classifyFixT calFixOk sFixOff sFix
      (by decide) [mkMsg "m1" "S1" 100] dbDisabled {} []

/-! ## C8 — classifier error handling -/

/-- C8: for every input, `classifyEmail` never raises: it is a total
    function, and on a call failure (the API promise rejecting with message
    `msg`) or a parse failure of the model's response it returns a
    classification with `is_subscription = false`, `confidence = 0` and a
    non-empty diagnostic reasoning string, so every caller receives a
    well-formed classification and treats failure as "not a subscription". -/
theorem classifyEmail_degrades_gracefully :
    ∀ (subject sender body : String) (date : Option Int) (msg : String),
      (classifyEmail subject sender body date (.error msg)).is_subscription = false
      ∧ (classifyEmail subject sender body date (.error msg)).confidence = 0
      ∧ (classifyEmail subject sender body date (.error msg)).reasoning
          = "Failed to classify: " ++ msg
      ∧ (classifyEmail subject sender body date (.ok none)).is_subscription = false
      ∧ (classifyEmail subject sender body date (.ok none)).confidence = 0
      ∧ (classifyEmail subject sender body date (.ok none)).reasoning ≠ ""
      ∧ ∀ c, classifyEmail subject sender body date (.ok (some c)) = c := by
  intro subject sender body date msg
  refine ⟨rfl, rfl, rfl, rfl, rfl, ?_, fun c => rfl⟩
  simp [classifyEmail]

/-! ## C10 — the ledger's unique constraint is global, not per account -/

/-- C10: the processed-message ledger enforces uniqueness of the message id
    globally: an insert for a message id already recorded — even under a
    different account — fails; an accepted insert preserves global
    uniqueness; global uniqueness implies the spec's per-(account,
    message-id) uniqueness; and the implication is strict (a ledger can be
    per-account unique without being globally unique). -/
theorem ledger_unique_constraint_is_global :
    (∀ (db : DB) (row p : ProcessedEmailRow), p ∈ db.processedEmails →
      p.gmailMessageId = row.gmailMessageId → p.userId ≠ row.userId →
      insertProcessedEmail db row = .error ())
    ∧ (∀ (db : DB) (row : ProcessedEmailRow) (db' : DB),
        globallyUniqueLedger db.processedEmails →
        insertProcessedEmail db row = .ok db' →
        globallyUniqueLedger db'.processedEmails)
    ∧ (∀ rows : List ProcessedEmailRow,
        globallyUniqueLedger rows → perAccountUniqueLedger rows)
    ∧ (∃ rows : List ProcessedEmailRow,
        perAccountUniqueLedger rows ∧ ¬ globallyUniqueLedger rows) := by
  refine ⟨?_, ?_, ?_, ?_⟩
  · intro db row p hp hid _huid
    simp only [insertProcessedEmail]
    rw [if_pos]
    exact List.any_eq_true.mpr ⟨p, hp, by simp [hid]⟩
  · intro db row db' huniq hok
    simp only [insertProcessedEmail] at hok
    split at hok
    · exact absurd hok (by simp)
    · rename_i hnone
      cases hok
      simp only [globallyUniqueLedger] at *
      rw [List.pairwise_append]
      refine ⟨huniq, List.pairwise_singleton _ _, ?_⟩
      intro a ha b hb
      simp only [List.mem_singleton] at hb
      subst hb
      intro heq
      exact hnone (List.any_eq_true.mpr ⟨a, ha, by simp [heq]⟩)
  · intro rows h
    exact h.imp (fun hne ⟨_, hid⟩ => hne hid)
  · refine ⟨[⟨"a", "m", false⟩, ⟨"b", "m", false⟩], ?_, ?_⟩
    · simp [perAccountUniqueLedger]
    · simp [globallyUniqueLedger]

/-- Witness for C10: the hypotheses are satisfiable — inserting message id
    "m" for account "b" into a ledger that already records "m" under
    account "a" fails, and the two-account singleton ledger is globally
    unique. -/
theorem ledger_unique_constraint_is_global_witness :
    insertProcessedEmail ⟨[], [], [⟨"a", "m", false⟩], []⟩ ⟨"b", "m", true⟩
        = .error ()
    ∧ globallyUniqueLedger [(⟨"a", "m", false⟩ : ProcessedEmailRow)] := by
  constructor
  · exact ledger_unique_constraint_is_global.1
      ⟨[], [], [⟨"a", "m", false⟩], []⟩ ⟨"b", "m", true⟩ ⟨"a", "m", false⟩
      (by simp) rfl (by simp)
  · simp [globallyUniqueLedger]

/-! ## C5 — end-date computation -/

/-- C5 counterexample: a classification with no explicit end date that
    declares `duration_days = 0` refutes the claimed rule.  The claim says
    the end date is then detected-date + duration_days (= 100); the code's
    `else if (classification.duration_days)` guard treats the declared 0 as
    falsy and takes the 14-day default, and the webhook run materializes a
    subscription with end date 114, not 100. -/
theorem endDate_durationZero_counterexample :
    cFixDur0.end_date = none
    ∧ cFixDur0.duration_days = some 0
    ∧ computeEndDate cFixDur0 100 = 114
    ∧ computeEndDateSpec cFixDur0 100 = 100
    ∧ runDurZero.db.subscriptions.map (fun s => s.endDate) = [some 114] := by
  exact ⟨rfl, rfl, rfl, rfl, by decide⟩

/-- C5 (amended): the end date of a materialized subscription follows the
    three-way rule with a nonzero-duration proviso — an explicit
    classification end date is used verbatim; otherwise a declared
    *nonzero* `duration_days` gives detected-date + duration; otherwise
    (including a declared duration of exactly 0, which the JS numeric
    truthiness test treats as absent) the end date is detected-date + 14. -/
theorem computeEndDate_three_way_rule :
    ∀ (c : EmailClassification) (detected : Int),
      (∀ d, c.end_date = some d → computeEndDate c detected = d)
      ∧ (∀ n, c.end_date = none → c.duration_days = some n → n ≠ 0 →
          computeEndDate c detected = detected + n)
      ∧ (c.end_date = none → c.duration_days = none ∨ c.duration_days = some 0 →
          computeEndDate c detected = detected + 14) := by
  intro c detected
  refine ⟨?_, ?_, ?_⟩
  · intro d hd
    simp [computeEndDate, hd]
  · intro n he hn hnz
    simp [computeEndDate, he, hn, hnz]
  · intro he hd
    rcases hd with hd | hd <;> simp [computeEndDate, he, hd]

/-- Witness for C5 (amended): all three branches evaluated at concrete
    classifications. -/
theorem computeEndDate_three_way_rule_witness :
    computeEndDate { cFix with end_date := some 64 } 100 = 64
    ∧ computeEndDate cFix 100 = 114
    ∧ computeEndDate { cFix with duration_days := none } 100 = 114 := by
  refine ⟨?_, ?_, ?_⟩
  · exact (computeEndDate_three_way_rule { cFix with end_date := some 64 } 100).1
      64 rfl
  · exact (computeEndDate_three_way_rule cFix 100).2.1 14 rfl rfl (by decide)
  · exact (computeEndDate_three_way_rule { cFix with duration_days := none }
      100).2.2 rfl (Or.inl rfl)

/-! ## C6 — inclusive 0.70 confidence gate -/

/-- C6: the materialization gate is inclusive at 0.70.  A classification
    with confidence 0.69 never passes the shared guard and produces no
    subscription record in any of the three entry points (the message is
    still processed); confidence 0.70 passes the guard and, absent any
    duplicate-suppression condition, produces exactly one subscription in
    each entry point. -/
theorem confidence_gate_inclusive_at_70 :
    (∀ c : EmailClassification, c.confidence = conf069 → qualifies c = false)
    ∧ (∀ c : EmailClassification, c.is_subscription = true →
        c.confidence = conf070 → qualifies c = true)
    ∧ ((runWebhookConf conf069).db.subscriptions.length = 0
        ∧ (runWebhookConf conf069).counts.processed = 1
        ∧ (runWebhookConf conf070).db.subscriptions.length = 1)
    ∧ ((runManualConf conf069).db.subscriptions.length = 0
        ∧ (runManualConf conf069).counts.processed = 1
        ∧ (runManualConf conf070).db.subscriptions.length = 1)
    ∧ ((runScanConf conf069).db.subscriptions.length = 0
        ∧ (runScanConf conf069).db.processedEmails.length = 1
        ∧ (runScanConf conf070).db.subscriptions.length = 1) := by
  refine ⟨?_, ?_, ?_, ?_, ?_⟩
  · intro c hc
    have h1 : (decide (confidenceThreshold ≤ conf069)) = false := by decide
    simp [qualifies, hc, h1]
  · intro c hs hc
    have h1 : (decide (confidenceThreshold ≤ conf070)) = true := by decide
    simp [qualifies, hs, hc, h1]
  · exact ⟨by decide, by decide, by decide⟩
  · exact ⟨by decide, by decide, by decide⟩
  · exact ⟨by decide, by decide, by decide⟩

/-- Witness for C6: the two quantified gate facts applied at the fixture
    classification with the concrete boundary confidences. -/
theorem confidence_gate_inclusive_at_70_witness :
    qualifies { cFix with confidence := conf069 } = false
    ∧ qualifies { cFix with confidence := conf070 } = true := by
  constructor
  · exact confidence_gate_inclusive_at_70.1 { cFix with confidence := conf069 } rfl
  · exact confidence_gate_inclusive_at_70.2.1 { cFix with confidence := conf070 }
      rfl rfl

/-! ## C7 — reminder creation is never fatal -/

/-- C7: `createReminder` returns an event id or null, never raising: it
    returns null whenever the computed reminder date (end date minus lead
    days) is already in the past, and null rather than an error when the
    external calendar is unreachable; and in the pipeline a null reminder
    outcome still materializes the subscription record, with a null
    reminder-event id (concretely: the webhook run with the calendar down
    inserts the subscription with `calendarEventId = none`). -/
theorem reminder_failure_not_fatal :
    (∀ (now endDate lead : Int) (cal : CalendarOutcome),
      endDate - lead < now → createReminder now endDate lead cal = none)
    ∧ (∀ (now endDate lead : Int),
        createReminder now endDate lead (.error ()) = none)
    ∧ ((runCalendarDown).db.subscriptions.map (fun s => s.calendarEventId)
        = [none]
        ∧ (runCalendarDown).counts.subscriptions = 1
        ∧ (runCalendarDown).counts.errors = 0) := by
  refine ⟨?_, ?_, by decide, by decide, by decide⟩
  · intro now endDate lead cal h
    simp only [createReminder]
    rw [if_pos h]
  · intro now endDate lead
    simp only [createReminder]
    split <;> rfl

/-- Witness for C7: a reminder date one day in the past yields null at a
    concrete input. -/
theorem reminder_failure_not_fatal_witness :
    createReminder 10 11 2 (.ok (some "ev1")) = none := by
  exact reminder_failure_not_fatal.1 10 11 2 (.ok (some "ev1")) (by decide)

/-! ## C9 — per-message failure isolation in batches -/

/-- Concatenating the per-batch settled results reproduces the itemwise
    results: each item's outcome is its own processor result, independent
    of its siblings'. -/
theorem toBatchesAux_flatMap_map (bs : Nat) (proc : α → Except ε β) :
    ∀ (fuel : Nat) (l : List α), l.length ≤ fuel →
      (toBatchesAux bs fuel l).flatMap (fun b => b.map proc) = l.map proc := by
  intro fuel
  induction fuel with
  | zero =>
    intro l hl
    cases l with
    | nil => rfl
    | cons a rest => simp at hl
  | succ fuel ih =>
    intro l hl
    cases l with
    | nil => rfl
    | cons a rest =>
      have hrest : rest.length ≤ fuel := by
        simpa [Nat.succ_le_succ_iff] using hl
      have hdrop : (rest.drop (bs - 1)).length ≤ fuel := by
        calc (rest.drop (bs - 1)).length ≤ rest.length := by
              simp [List.length_drop]
          _ ≤ fuel := hrest
      calc (toBatchesAux bs (fuel + 1) (a :: rest)).flatMap
              (fun b => b.map proc)
          = (a :: rest.take (bs - 1)).map proc
              ++ (toBatchesAux bs fuel (rest.drop (bs - 1))).flatMap
                  (fun b => b.map proc) := by
            simp [toBatchesAux]
        _ = (a :: rest.take (bs - 1)).map proc
              ++ (rest.drop (bs - 1)).map proc := by rw [ih _ hdrop]
        _ = proc a :: (rest.take (bs - 1) ++ rest.drop (bs - 1)).map proc := by
            simp
        _ = (a :: rest).map proc := by rw [List.take_append_drop]; simp

/-- C9: within a run, failures are isolated per message.
    `processInBatches` yields exactly the itemwise settled results — a
    rejection for one item never drops a sibling's result in the same or
    any other batch — and in the scenario of a ten-message webhook batch
    whose classification throws for message "b5" only, the other nine still
    get processed-message records and subscriptions while the aggregate
    error count is exactly 1 and "b5" is not recorded. -/
theorem batch_failures_isolated :
    (∀ (α ε β : Type) (items : List α) (proc : α → Except ε β) (bs : Nat),
      processInBatches items proc bs = items.map proc)
    ∧ (runBatchOneFail.counts.processed = 9
        ∧ runBatchOneFail.counts.errors = 1
        ∧ runBatchOneFail.db.processedEmails.length = 9
        ∧ runBatchOneFail.db.subscriptions.length = 9
        ∧ ledgerCount runBatchOneFail.db "b5" = 0
        ∧ ledgerCount runBatchOneFail.db "b1" = 1
        ∧ ledgerCount runBatchOneFail.db "b10" = 1) := by
  constructor
  · intro α ε β items proc bs
    exact toBatchesAux_flatMap_map bs proc items.length items le_rfl
  · exact ⟨by decide, by decide, by decide, by decide, by decide, by decide,
      by decide⟩

end SubScout
